import Mathlib

/-!
Shallow embedding, in Lean 4, of the motion-planning and trajectory-control
core of the thrust-vectored-vehicle simulator (TypeScript sources under
`src/`): the RRT path planner (`src/rrt.ts`, class `RRTPathPlanner`), the
shortest-line-to-path query (`src/ddp.ts`, `getShortestLineToPath`), the path
interpolator (`src/path-interpolation.ts`), the waypoint-following cost
(`src/get-waypoints-cost.ts`), the random-shooting controller
(`src/rrt.ts`, class `DDPController`) and the game loop physics step
(`src/core/game-loop.ts`).

JavaScript numbers are modelled as real numbers; decimal literals are read
exactly.  The one IEEE artefact the code relies on — `Infinity` as the
initial value of running minima, and `NaN` propagation on degenerate
(zero-length) polyline segments, which makes every comparison with the
running minimum false — is modelled structurally: running minima are
`Option ℝ` with `none` standing for `Infinity`, and zero-length segments are
skipped explicitly, which is exactly the observable behaviour of the
JavaScript code.
-/

noncomputable section
open Classical

/-- Vector2D record from `src/types.ts`. -/
structure Vector2D where
  x : ℝ
  y : ℝ
deriving DecidableEq

/-- Rectangle (axis-aligned obstacle) record from `src/types.ts`. -/
structure Rectangle where
  x : ℝ
  y : ℝ
  width : ℝ
  height : ℝ

/-- ControlInput record from `src/types.ts`. -/
structure ControlInput where
  thrust : ℝ
  torque : ℝ

/-- GameState record from `src/types.ts`.  The field `fuel` is an `Option ℝ`
because `DDPController.dynamics` and `GameLoop.updatePhysics` both branch on
whether `state.fuel` is a number at runtime. -/
structure GameState where
  position : Vector2D
  velocity : Vector2D
  angle : ℝ
  angularVelocity : ℝ
  thrust : ℝ
  fuel : Option ℝ
  isCollided : Bool

/-- List indexing as the JavaScript `path[i]` on an index known to be in
range (out of range yields a junk default instead of `undefined`). -/
def nth (l : List Vector2D) (i : ℕ) : Vector2D := l.getD i ⟨0, 0⟩

/-- distanceBetween from `src/distance-between.ts`. -/
def distanceBetween (point1 point2 : Vector2D) : ℝ :=
  Real.sqrt ((point2.x - point1.x) * (point2.x - point1.x) +
    (point2.y - point1.y) * (point2.y - point1.y))

/-! Section: RRTPathPlanner (`src/rrt.ts`, lines 9-223) -/

/-- Constructor-bound planner parameters (`obstacles`, `width`, `height`). -/
structure RRTParams where
  obstacles : List Rectangle
  width : ℝ
  height : ℝ

/-- RRTPathPlanner.maxIterations. -/
def maxIterations : ℕ := 1000
/-- RRTPathPlanner.stepSize. -/
def stepSize : ℝ := 20
/-- RRTPathPlanner.goalBias. -/
def goalBias : ℝ := 0.1
/-- RRTPathPlanner.goalThreshold. -/
def goalThreshold : ℝ := 30
/-- RRTPathPlanner.boundaryMargin. -/
def boundaryMargin : ℝ := 20

/-- RRTPathPlanner.distance. -/
def distance (a b : Vector2D) : ℝ :=
  Real.sqrt ((a.x - b.x) * (a.x - b.x) + (a.y - b.y) * (a.y - b.y))

/-- RRTPathPlanner.pointInRectangle. -/
def pointInRectangle (point : Vector2D) (rect : Rectangle) : Prop :=
  point.x ≥ rect.x ∧ point.x ≤ rect.x + rect.width ∧
  point.y ≥ rect.y ∧ point.y ≤ rect.y + rect.height

/-- The four rectangle edges built inside RRTPathPlanner.lineIntersectsRectangle
(top, right, bottom, left — the same cycle is built in
DDPController.collisionCourseCost). -/
def rectEdges (rect : Rectangle) : List (Vector2D × Vector2D) :=
  [(⟨rect.x, rect.y⟩, ⟨rect.x + rect.width, rect.y⟩),
   (⟨rect.x + rect.width, rect.y⟩, ⟨rect.x + rect.width, rect.y + rect.height⟩),
   (⟨rect.x + rect.width, rect.y + rect.height⟩, ⟨rect.x, rect.y + rect.height⟩),
   (⟨rect.x, rect.y + rect.height⟩, ⟨rect.x, rect.y⟩)]

/-- RRTPathPlanner.lineSegmentsIntersect. -/
def lineSegmentsIntersect (a b c d : Vector2D) : Prop :=
  let rx := b.x - a.x
  let ry := b.y - a.y
  let sx := d.x - c.x
  let sy := d.y - c.y
  let denominator := rx * sy - ry * sx
  let t := ((c.x - a.x) * sy - (c.y - a.y) * sx) / denominator
  let u := ((c.x - a.x) * ry - (c.y - a.y) * rx) / denominator
  ¬ (|denominator| < 1e-10) ∧ (t ≥ 0 ∧ t ≤ 1 ∧ u ≥ 0 ∧ u ≤ 1)

/-- RRTPathPlanner.lineIntersectsRectangle. -/
def lineIntersectsRectangle (a b : Vector2D) (rect : Rectangle) : Prop :=
  pointInRectangle a rect ∨ pointInRectangle b rect ∨
    ∃ e ∈ rectEdges rect, lineSegmentsIntersect a b e.1 e.2

/-- Boundary part of RRTPathPlanner.collides (checked on the segment's `to`
endpoint only). -/
def outsideArena (P : RRTParams) (t : Vector2D) : Prop :=
  t.x < boundaryMargin ∨ t.x > P.width - boundaryMargin ∨
  t.y < boundaryMargin ∨ t.y > P.height - boundaryMargin

/-- RRTPathPlanner.collides: the segment hits some obstacle, or its endpoint
leaves the margin-shrunk arena. -/
def collides (P : RRTParams) (a b : Vector2D) : Prop :=
  (∃ ob ∈ P.obstacles, lineIntersectsRectangle a b ob) ∨ outsideArena P b

/-- RRTPathPlanner.steer. -/
def steer (a b : Vector2D) (step : ℝ) : Vector2D :=
  let d := distance a b
  if d ≤ step then b
  else ⟨a.x + (b.x - a.x) * (step / d), a.y + (b.y - a.y) * (step / d)⟩

/-- RRTPathPlanner.sampleRandomPoint, with the two `Math.random()` draws
passed explicitly. -/
def sampleRandomPoint (P : RRTParams) (r1 r2 : ℝ) : Vector2D :=
  ⟨boundaryMargin + r1 * (P.width - 2 * boundaryMargin),
   boundaryMargin + r2 * (P.height - 2 * boundaryMargin)⟩

/-- RRT tree node (`{position, parent}` with `parent: RRTNode | null`). -/
inductive RRTNode where
  | root (position : Vector2D)
  | child (position : Vector2D) (parent : RRTNode)

/-- Position field of a tree node. -/
def RRTNode.position : RRTNode → Vector2D
  | .root p => p
  | .child p _ => p

/-- Scanning part of RRTPathPlanner.findNearestNode: strict improvement, so
the earliest node among equally near ones is kept. -/
def findNearestNodeAux (point : Vector2D) :
    RRTNode → ℝ → List RRTNode → RRTNode
  | best, _, [] => best
  | best, bestD, n :: rest =>
    if distance n.position point < bestD then
      findNearestNodeAux point n (distance n.position point) rest
    else
      findNearestNodeAux point best bestD rest

/-- RRTPathPlanner.findNearestNode (the tree is never empty in the source;
the empty case returns a junk root). -/
def findNearestNode (tree : List RRTNode) (point : Vector2D) : RRTNode :=
  match tree with
  | [] => RRTNode.root point
  | n :: rest => findNearestNodeAux point n (distance n.position point) rest

/-- The parent walk of RRTPathPlanner.constructPath: repeated `unshift`
produces the root-to-node position list. -/
def chainPath : RRTNode → List Vector2D
  | .root p => [p]
  | .child p par => chainPath par ++ [p]

/-- Inner backward scan of RRTPathPlanner.simplifyPath: from index `j` down
to `i + 1`, the first index whose segment from `path[i]` is collision-free;
`i + 1` when the scan falls through. -/
def furthestVisibleScan (P : RRTParams) (path : List Vector2D) (i : ℕ) :
    ℕ → ℕ
  | 0 => i + 1
  | j + 1 =>
    if j + 1 ≤ i then i + 1
    else if ¬ collides P (nth path i) (nth path (j + 1)) then j + 1
    else furthestVisibleScan P path i j

/-- Outer while-loop of RRTPathPlanner.simplifyPath.  The loop index strictly
increases each round, so `path.length` rounds of fuel always suffice. -/
def simplifyLoop (P : RRTParams) (path : List Vector2D) : ℕ → ℕ → List Vector2D
  | 0, _ => []
  | fuel + 1, i =>
    if i < path.length - 1 then
      let fv := furthestVisibleScan P path i (path.length - 1)
      nth path fv :: simplifyLoop P path fuel fv
    else []

/-- RRTPathPlanner.simplifyPath. -/
def simplifyPath (P : RRTParams) (path : List Vector2D) : List Vector2D :=
  if path.length ≤ 2 then path
  else nth path 0 :: simplifyLoop P path path.length 0

/-- Main loop of RRTPathPlanner.findPath.  `rand` is the `Math.random()`
stream; index `k` counts the draws consumed so far (one draw for the goal
bias test, two more when a uniform sample is taken). -/
def findPathLoop (P : RRTParams) (goal : Vector2D) (rand : ℕ → ℝ) :
    ℕ → ℕ → List RRTNode → List Vector2D
  | 0, _, _ => []
  | fuel + 1, k, tree =>
    let useGoal := rand k < goalBias
    let samplePoint :=
      if useGoal then goal else sampleRandomPoint P (rand (k + 1)) (rand (k + 2))
    let nextK := if useGoal then k + 1 else k + 3
    let nearest := findNearestNode tree samplePoint
    let newPosition := steer nearest.position samplePoint stepSize
    if collides P nearest.position newPosition then
      findPathLoop P goal rand fuel nextK tree
    else
      let newNode := RRTNode.child newPosition nearest
      if distance newPosition goal < goalThreshold then
        simplifyPath P (chainPath newNode)
      else
        findPathLoop P goal rand fuel nextK (tree ++ [newNode])

/-- RRTPathPlanner.findPath (an empty result is the no-path outcome). -/
def findPath (P : RRTParams) (start goal : Vector2D) (rand : ℕ → ℝ) :
    List Vector2D :=
  findPathLoop P goal rand maxIterations 0 [RRTNode.root start]

/-! Section: getShortestLineToPath (`src/ddp.ts`, lines 393-451) -/

/-- The segment record `{start, end}` returned by the query (`end` is a Lean
keyword, hence `segStart`/`segEnd`). -/
structure PathSegment where
  segStart : Vector2D
  segEnd : Vector2D

/-- The three result fields of getShortestLineToPath.  In the JavaScript they
are either all set (a finite minimum was found) or `Infinity`/`null`/`null`;
that is modelled as a single `Option` of this record. -/
structure ShortestLineHit where
  dist : ℝ
  point : Vector2D
  seg : PathSegment

/-- The consecutive index pairs `(path[i], path[i+1])` the query loops over. -/
def segPairs : List Vector2D → List (Vector2D × Vector2D)
  | a :: b :: rest => (a, b) :: segPairs (b :: rest)
  | _ => []

/-- The clamped-projection point of one loop body of getShortestLineToPath:
project onto the line through `a, b`, clamp the parameter to `[0, 1]`. -/
def segClosestPoint (pos a b : Vector2D) : Vector2D :=
  let vx := b.x - a.x
  let vy := b.y - a.y
  let wx := pos.x - a.x
  let wy := pos.y - a.y
  let t := (wx * vx + wy * vy) / (vx * vx + vy * vy)
  if t < 0 then a
  else if t > 1 then b
  else ⟨a.x + t * vx, a.y + t * vy⟩

/-- Distance computed by one loop body of getShortestLineToPath. -/
def segClosestDist (pos a b : Vector2D) : ℝ :=
  distanceBetween pos (segClosestPoint pos a b)

/-- One loop body of getShortestLineToPath.  A zero-length segment makes the
JavaScript projection parameter `NaN`; the `NaN` propagates into the computed
distance, whose comparison against the running minimum is then false — i.e.
the segment never updates the minimum.  That is the explicit first branch. -/
def shortestLineStep (pos : Vector2D) (acc : Option ShortestLineHit)
    (ab : Vector2D × Vector2D) : Option ShortestLineHit :=
  if ab.1.x = ab.2.x ∧ ab.1.y = ab.2.y then acc
  else
    let d := segClosestDist pos ab.1 ab.2
    match acc with
    | none => some ⟨d, segClosestPoint pos ab.1 ab.2, ⟨ab.1, ab.2⟩⟩
    | some best =>
      if d < best.dist then some ⟨d, segClosestPoint pos ab.1 ab.2, ⟨ab.1, ab.2⟩⟩
      else some best

/-- getShortestLineToPath from `src/ddp.ts`: `none` is the
`{Infinity, null, null}` result. -/
def getShortestLineToPath (path : List Vector2D) (pos : Vector2D) :
    Option ShortestLineHit :=
  (segPairs path).foldl (shortestLineStep pos) none

/-! Section: PathInterpolator (`src/path-interpolation.ts`) -/

/-- Constructor-bound interpolator parameters. -/
structure PathInterpolator where
  lookaheadDistance : ℝ
  maxDistanceToPath : ℝ

/-- getVectorBetweenPoints from `src/path-interpolation.ts`. -/
def getVectorBetweenPoints (point1 point2 currentPoint : Vector2D)
    (length : ℝ) : Vector2D :=
  let dvx := point2.x - point1.x
  let dvy := point2.y - point1.y
  let directionVectorLength := distanceBetween ⟨0, 0⟩ ⟨dvx, dvy⟩
  if directionVectorLength = 0 then currentPoint
  else ⟨currentPoint.x + dvx * length / directionVectorLength,
        currentPoint.y + dvy * length / directionVectorLength⟩

/-- JavaScript `Array.prototype.findIndex`: index of the first element
satisfying the test, `none` for the JavaScript `-1`. -/
def jsFindIndex (p : Vector2D → Prop) : List Vector2D → Option ℕ
  | [] => none
  | w :: rest =>
    if p w then some 0 else (jsFindIndex p rest).map (· + 1)

/-- The forward arc-length walk of PathInterpolator.getInterpolatedTarget
(the while loop).  `none` means the loop exited with its condition false (the
caller then returns `finalTarget`); `some` is the interpolated return.  The
index strictly increases each round, so `waypoints.length` fuel suffices. -/
def walkLoop (waypoints : List Vector2D) :
    ℕ → ℕ → Vector2D → ℝ → ℝ → Option Vector2D
  | 0, _, _, _, _ => none
  | fuel + 1, idx, currentPoint, remainingDistance, distanceToNext =>
    if remainingDistance > 0 ∧ idx < waypoints.length - 1 then
      if remainingDistance > distanceToNext then
        walkLoop waypoints fuel (idx + 1) (nth waypoints (idx + 1))
          (remainingDistance - distanceToNext)
          (distanceBetween (nth waypoints (idx + 1)) (nth waypoints (idx + 2)))
      else
        some (getVectorBetweenPoints currentPoint (nth waypoints (idx + 1))
          currentPoint remainingDistance)
    else none

/-- PathInterpolator.getInterpolatedTarget. -/
def getInterpolatedTarget (ip : PathInterpolator) (currentPosition : Vector2D)
    (waypoints : List Vector2D) (finalTarget : Vector2D) : Vector2D :=
  if waypoints.length = 0 then finalTarget
  else
    let distanceToLastWaypoint :=
      distanceBetween currentPosition (waypoints.getLastD ⟨0, 0⟩)
    let coercedLookaheadDistance :=
      min ip.lookaheadDistance distanceToLastWaypoint
    match getShortestLineToPath waypoints currentPosition with
    | none => finalTarget
    | some hit =>
      match jsFindIndex
          (fun w => w.x = hit.seg.segStart.x ∧ w.y = hit.seg.segStart.y)
          waypoints with
      | none => finalTarget
      | some j =>
        if j < waypoints.length - 1 then
          if hit.dist < coercedLookaheadDistance then
            match walkLoop waypoints waypoints.length j hit.point
                (coercedLookaheadDistance - hit.dist)
                (distanceBetween hit.point (nth waypoints (j + 1))) with
            | some pt => pt
            | none => finalTarget
          else
            getVectorBetweenPoints currentPosition hit.point currentPosition
              coercedLookaheadDistance
        else finalTarget

/-- PathInterpolator.needsReplanning.  A query with no finite minimum returns
`Infinity`, and `Infinity > maxDistanceToPath` is true for every real
threshold, hence the `none` branch. -/
def needsReplanning (ip : PathInterpolator) (currentPosition : Vector2D)
    (waypoints : List Vector2D) : Prop :=
  match getShortestLineToPath waypoints currentPosition with
  | none => True
  | some hit => hit.dist > ip.maxDistanceToPath

/-! Section: getWaypointsFollowingCost (`src/get-waypoints-cost.ts`) -/

/-- Stands in for the IEEE value `Infinity` in the one branch of the waypoint
cost that reads the query's `shortestDistance` when no finite minimum exists
(which requires every consecutive waypoint pair to be identical).  The real
embedding cannot carry `Infinity`; `2 ^ 1024` is the smallest power of two
that overflows a double.  No theorem below depends on this value: every
statement about the waypoint cost either keeps the query away from this
branch or does not inspect it. -/
def jsInfinity : ℝ := 2 ^ 1024

/-- getWaypointsFollowingCost from `src/get-waypoints-cost.ts`.  The
`try`/`catch` of the source is dead in the real embedding (the only `throw`
guards against a non-numeric distance). -/
def getWaypointsFollowingCost (waypoints : List Vector2D)
    (position velocity : Vector2D)
    (waypointsDistanceWeight waypointsVelocityWeight : ℝ) : ℝ :=
  if waypoints.length < 2 then 0
  else
    match getShortestLineToPath waypoints position with
    | none => waypointsDistanceWeight * Real.sqrt jsInfinity
    | some hit =>
      let distanceCost := waypointsDistanceWeight * Real.sqrt hit.dist
      let velocityMagnitude :=
        Real.sqrt (velocity.x * velocity.x + velocity.y * velocity.y)
      if velocityMagnitude > 0.001 then
        let vnx := velocity.x / velocityMagnitude
        let vny := velocity.y / velocityMagnitude
        let svx := hit.seg.segEnd.x - hit.seg.segStart.x
        let svy := hit.seg.segEnd.y - hit.seg.segStart.y
        let segmentLength := Real.sqrt (svx * svx + svy * svy)
        if segmentLength < 0.001 then distanceCost
        else
          let snx := svx / segmentLength
          let sny := svy / segmentLength
          let alignmentDot := vnx * snx + vny * sny
          let expectedVelocity := min 15 (segmentLength / 10)
          let velocityCost1 :=
            if alignmentDot > 0 then
              waypointsVelocityWeight *
                (1 - min 1 (velocityMagnitude / expectedVelocity))
            else
              waypointsVelocityWeight *
                (1 + |alignmentDot| * velocityMagnitude / 5)
          let velocityCost2 :=
            if hit.dist > 0.001 then
              let tpx := hit.point.x - position.x
              let tpy := hit.point.y - position.y
              let toPathDistance := Real.sqrt (tpx * tpx + tpy * tpy)
              let pathAlignmentDot :=
                vnx * (tpx / toPathDistance) + vny * (tpy / toPathDistance)
              let pathDirectionFactor :=
                -pathAlignmentDot * min 1 (hit.dist / 50)
              let pathVelocityFactor :=
                if pathAlignmentDot > 0 then
                  min 1 (velocityMagnitude / expectedVelocity)
                else 0
              waypointsVelocityWeight * pathDirectionFactor *
                (1 + pathVelocityFactor)
            else 0
          distanceCost + (velocityCost1 + velocityCost2)
      else distanceCost

/-! Section: DDPController (`src/rrt.ts`, lines 258-682) -/

/-- Constructor-bound controller parameters: the explicit constructor
arguments together with the merged weight record (`defaultDdpWeights`
overridden by the caller's `weights`). -/
structure DDPParams where
  gravity : ℝ
  thrustMax : ℝ
  torqueMax : ℝ
  targetPosition : Vector2D
  obstacles : List Rectangle
  canvasWidth : ℝ
  canvasHeight : ℝ
  velocityWeight : ℝ
  angularVelocityWeight : ℝ
  positionWeight : ℝ
  boundaryWeight : ℝ
  boundaryMargin : ℝ
  obstacleWeight : ℝ
  obstacleMargin : ℝ
  collisionCourseWeight : ℝ
  collisionTimeHorizon : ℝ
  shipRadius : ℝ
  waypointsVelocityWeight : ℝ
  waypointsDistanceWeight : ℝ
  waypoints : List Vector2D

/-- DDPController.dt. -/
def ddpDt : ℝ := 0.016
/-- DDPController.horizon. -/
def ddpHorizon : ℕ := 60
/-- DDPController.iterations. -/
def ddpIterations : ℕ := 30

/-- Modelled from the spec: `normalizeAngle` lives in `src/util.ts`, which is
not part of the source snapshot (only its callers are).  The spec says the
angle "is always kept normalized to a canonical range (e.g. (−π, π])"; this
wraps by whole turns to the turn nearest zero.  No claim below depends on the
exact range. -/
def normalizeAngle (a : ℝ) : ℝ := a - 2 * Real.pi * round (a / (2 * Real.pi))

/-- DDPController.dynamics (`src/rrt.ts`, lines 652-681).  Note: the fuel
update subtracts without clamping, and no velocity clamp appears anywhere. -/
def dynamics (p : DDPParams) (state : GameState) (control : ControlInput) :
    GameState :=
  let cosAngle := Real.cos state.angle
  let sinAngle := Real.sin state.angle
  { position := ⟨state.position.x + state.velocity.x * ddpDt,
                 state.position.y + state.velocity.y * ddpDt⟩
    velocity := ⟨state.velocity.x + control.thrust * sinAngle * ddpDt,
                 state.velocity.y +
                   (-control.thrust * cosAngle + p.gravity) * ddpDt⟩
    angle := normalizeAngle (state.angle + state.angularVelocity * ddpDt)
    angularVelocity := state.angularVelocity + control.torque * ddpDt
    thrust := control.thrust
    fuel := match state.fuel with
      | some f => some (f - control.thrust * ddpDt)
      | none => some 1000
    isCollided := false }

/-- The `expandedObstacle` built inside DDPController.collisionCourseCost:
the obstacle rectangle inflated by the ship radius. -/
def inflateRect (r : Rectangle) (radius : ℝ) : Rectangle :=
  ⟨r.x - radius, r.y - radius, r.width + 2 * radius, r.height + 2 * radius⟩

/-- A strict comparison against a running minimum whose initial JavaScript
value is `Infinity` (`none`). -/
def ltRunningMin (t : ℝ) : Option ℝ → Prop
  | none => True
  | some m => t < m

/-- One edge of the ray-cast inside DDPController.collisionCourseCost: the
time to collision along the normalized velocity `(vx, vy)`, `none` when the
edge is rejected. -/
def edgeTimeToCollision (px py vx vy speed : ℝ) (e : Vector2D × Vector2D) :
    Option ℝ :=
  let x1 := e.1.x - px
  let y1 := e.1.y - py
  let x2 := e.2.x - px
  let y2 := e.2.y - py
  let cross1 := x1 * vy - y1 * vx
  let cross2 := x2 * vy - y2 * vx
  if cross1 * cross2 ≤ 0 then
    let dx := x2 - x1
    let dy := y2 - y1
    if |dx * vy - dy * vx| < 1e-6 then none
    else
      let t := (x1 * vy - y1 * vx) / (dy * vx - dx * vy)
      if t < 0 ∨ t > 1 then none
      else
        let ix := e.1.x + t * dx
        let iy := e.1.y + t * dy
        let d := Real.sqrt ((ix - px) * (ix - px) + (iy - py) * (iy - py))
        some (d / speed)
  else none

/-- The edge fold of DDPController.collisionCourseCost: the minimum strictly
positive time to collision over the four edges of the expanded obstacle
(`none` is the initial JavaScript `Infinity`). -/
def minTimeToCollision (position : Vector2D) (vx vy speed : ℝ)
    (expanded : Rectangle) : Option ℝ :=
  (rectEdges expanded).foldl
    (fun acc e =>
      match edgeTimeToCollision position.x position.y vx vy speed e with
      | some ttc => if ltRunningMin ttc acc ∧ ttc > 0 then some ttc else acc
      | none => acc)
    none

/-- The per-obstacle body of DDPController.collisionCourseCost. -/
def obstacleCollisionCourseCost (p : DDPParams) (position velocity : Vector2D)
    (speed : ℝ) (obstacle : Rectangle) : ℝ :=
  let expanded := inflateRect obstacle p.shipRadius
  let vx := velocity.x / speed
  let vy := velocity.y / speed
  match minTimeToCollision position vx vy speed expanded with
  | none => 0
  | some t =>
    if t < p.collisionTimeHorizon then
      let distanceToCollision := t * speed
      let effectiveMargin :=
        max (p.shipRadius * 10) (p.collisionTimeHorizon * speed / 2)
      let collisionDistanceFactor :=
        min effectiveMargin (max 0 (effectiveMargin - distanceToCollision))
      p.collisionCourseWeight * collisionDistanceFactor ^ 2
    else 0

/-- DDPController.collisionCourseCost. -/
def collisionCourseCost (p : DDPParams) (state : GameState) : ℝ :=
  if p.obstacles = [] then 0
  else
    let speed := Real.sqrt (state.velocity.x * state.velocity.x +
      state.velocity.y * state.velocity.y)
    if speed < 0.1 then 0
    else
      (p.obstacles.map
        (obstacleCollisionCourseCost p state.position state.velocity speed)).sum

/-- DDPController.boundaryAvoidanceCost. -/
def boundaryAvoidanceCost (p : DDPParams) (position : Vector2D) : ℝ :=
  (if position.x < p.boundaryMargin then
    p.boundaryWeight * (p.boundaryMargin - position.x) ^ 2 else 0) +
  (if p.canvasWidth - position.x < p.boundaryMargin then
    p.boundaryWeight * (p.boundaryMargin - (p.canvasWidth - position.x)) ^ 2
  else 0) +
  (if position.y < p.boundaryMargin then
    p.boundaryWeight * (p.boundaryMargin - position.y) ^ 2 else 0) +
  (if p.canvasHeight - position.y < p.boundaryMargin then
    p.boundaryWeight * (p.boundaryMargin - (p.canvasHeight - position.y)) ^ 2
  else 0)

/-- DDPController.obstacleAvoidanceCost. -/
def obstacleAvoidanceCost (p : DDPParams) (position : Vector2D) : ℝ :=
  (p.obstacles.map (fun obstacle =>
    let dx := max (obstacle.x - position.x)
      (max 0 (position.x - (obstacle.x + obstacle.width)))
    let dy := max (obstacle.y - position.y)
      (max 0 (position.y - (obstacle.y + obstacle.height)))
    let d := Real.sqrt (dx * dx + dy * dy)
    if d < p.obstacleMargin then
      p.obstacleWeight * (p.obstacleMargin - d) ^ 2
    else 0)).sum

/-- The `lastCosts` record stored by DDPController.cost. -/
structure CostComponents where
  position : ℝ
  velocity : ℝ
  angularVelocity : ℝ
  obstacle : ℝ
  boundary : ℝ
  collisionCourse : ℝ
  waypoints : ℝ
  total : ℝ

/-- DDPController.cost as a pure function returning the component record the
source stores in `lastCosts` (its return value is the `total` field). -/
def costComponents (p : DDPParams) (state : GameState) : CostComponents :=
  let dx := state.position.x - p.targetPosition.x
  let dy := state.position.y - p.targetPosition.y
  let positionCost := p.positionWeight * (dx * dx + dy * dy)
  let velocityCost := (state.velocity.x * p.velocityWeight) ^ 2 +
    (state.velocity.y * p.velocityWeight) ^ 2
  let angularVelocityCost :=
    (state.angularVelocity * p.angularVelocityWeight) ^ 2
  let obstacleCost := obstacleAvoidanceCost p state.position
  let boundaryCost := boundaryAvoidanceCost p state.position
  let ccCost := collisionCourseCost p state
  let wpCost := getWaypointsFollowingCost p.waypoints state.position
    state.velocity p.waypointsDistanceWeight p.waypointsVelocityWeight
  { position := positionCost
    velocity := velocityCost
    angularVelocity := angularVelocityCost
    obstacle := obstacleCost
    boundary := boundaryCost
    collisionCourse := ccCost
    waypoints := wpCost
    total := positionCost + velocityCost + angularVelocityCost +
      obstacleCost + boundaryCost + ccCost + wpCost }

/-- Return value of DDPController.cost. -/
def cost (p : DDPParams) (state : GameState) : ℝ := (costComponents p state).total

/-- The candidate control drawn in iteration `i` of
DDPController.computeControl: two `Math.random()` draws per iteration. -/
def candidateControl (p : DDPParams) (rand : ℕ → ℝ) (i : ℕ) : ControlInput :=
  ⟨rand (2 * i) * p.thrustMax, (rand (2 * i + 1) * 2 - 1) * p.torqueMax⟩

/-- The forward simulation inside DDPController.computeControl: `t` steps of
`dynamics` under one constant candidate control, from a copy of the current
state. -/
def rollout (p : DDPParams) (state : GameState) (control : ControlInput) :
    ℕ → GameState
  | 0 => state
  | t + 1 => dynamics p (rollout p state control t) control

/-- Cumulative rollout cost after `t` simulated steps (the source sums the
cost of each post-step state). -/
def rolloutCost (p : DDPParams) (state : GameState) (control : ControlInput) :
    ℕ → ℝ
  | 0 => 0
  | t + 1 => rolloutCost p state control t + cost p (rollout p state control (t + 1))

/-- The candidate loop of DDPController.computeControl: strict improvement
against a best cost starting at `Infinity` (`none`). -/
def computeControlLoop (p : DDPParams) (state : GameState) (rand : ℕ → ℝ) :
    ℕ → ℕ → ControlInput → Option ℝ → ControlInput
  | 0, _, best, _ => best
  | n + 1, i, best, bestCost =>
    let c := candidateControl p rand i
    let totalCost := rolloutCost p state c ddpHorizon
    if ltRunningMin totalCost bestCost then
      computeControlLoop p state rand n (i + 1) c (some totalCost)
    else
      computeControlLoop p state rand n (i + 1) best bestCost

/-- DDPController.computeControl, with the `Math.random()` stream passed
explicitly (the source reads the hidden global). -/
def computeControl (p : DDPParams) (state : GameState) (rand : ℕ → ℝ) :
    ControlInput :=
  computeControlLoop p state rand ddpIterations 0 ⟨0, 0⟩ none

/-! Section: GameLoop.updatePhysics (`src/core/game-loop.ts`, lines 82-117) -/

/-- GameLoop.dt. -/
def gameLoopDt : ℝ := 0.016

/-- The `maxVelocity` clamp of GameLoop.updatePhysics. -/
def clampVelocity (v : ℝ) : ℝ := max (-1000) (min 1000 v)

/-- GameLoop.updatePhysics: clamps the velocity components and the angular
velocity to ±1000, then integrates with the clamped values, and clamps fuel
at zero. -/
def updatePhysics (gravity : Vector2D) (state : GameState)
    (control : ControlInput) : GameState :=
  let cosAngle := Real.cos state.angle
  let sinAngle := Real.sin state.angle
  let cvx := clampVelocity state.velocity.x
  let cvy := clampVelocity state.velocity.y
  let cav := clampVelocity state.angularVelocity
  { position := ⟨state.position.x + cvx * gameLoopDt,
                 state.position.y + cvy * gameLoopDt⟩
    velocity := ⟨cvx + control.thrust * sinAngle * gameLoopDt,
                 cvy + (-control.thrust * cosAngle + gravity.y) * gameLoopDt⟩
    angle := normalizeAngle (state.angle + cav * gameLoopDt)
    angularVelocity := cav + control.torque * gameLoopDt
    thrust := control.thrust
    fuel := state.fuel.map (fun f => max 0 (f - control.thrust * gameLoopDt))
    isCollided := state.isCollided }

/-! Section: Derived definitions, claim-reading definitions and sample inputs -/

/-- A sample controller parameter record (default-like weights, a torque
limit large enough to exercise one-step rollout growth). -/
def sampleDdp : DDPParams :=
  { gravity := 9.81
    thrustMax := 100
    torqueMax := 125000
    targetPosition := ⟨0, 0⟩
    obstacles := []
    canvasWidth := 1000
    canvasHeight := 1000
    velocityWeight := 1
    angularVelocityWeight := 0.1
    positionWeight := 15
    boundaryWeight := 9
    boundaryMargin := 50
    obstacleWeight := 0
    obstacleMargin := 0
    collisionCourseWeight := 25
    collisionTimeHorizon := 15
    shipRadius := 15
    waypointsVelocityWeight := 1
    waypointsDistanceWeight := 1
    waypoints := [] }

/-- A sample vehicle state at rest with an empty tank. -/
def sampleState : GameState :=
  ⟨⟨500, 500⟩, ⟨0, 0⟩, 0, 0, 0, some 0, false⟩

/-- A controller parameter record with every weight zero. -/
def zeroWeightDdp : DDPParams :=
  { gravity := 9.81
    thrustMax := 15
    torqueMax := 5
    targetPosition := ⟨400, 100⟩
    obstacles := [⟨100, 100, 10, 10⟩]
    canvasWidth := 800
    canvasHeight := 600
    velocityWeight := 0
    angularVelocityWeight := 0
    positionWeight := 0
    boundaryWeight := 0
    boundaryMargin := 50
    obstacleWeight := 0
    obstacleMargin := 100
    collisionCourseWeight := 0
    collisionTimeHorizon := 15
    shipRadius := 15
    waypointsVelocityWeight := 0
    waypointsDistanceWeight := 0
    waypoints := [] }

/-- Indexing into the consecutive-pair list. -/
def pnth (l : List (Vector2D × Vector2D)) (i : ℕ) : Vector2D × Vector2D :=
  l.getD i (⟨0, 0⟩, ⟨0, 0⟩)

/-- The zero-length-segment test of the query loop (the case the JavaScript
skips through `NaN` propagation). -/
def degenerateSeg (ab : Vector2D × Vector2D) : Prop :=
  ab.1.x = ab.2.x ∧ ab.1.y = ab.2.y

/-- The hit record one loop body would store for a segment. -/
def mkHit (pos : Vector2D) (ab : Vector2D × Vector2D) : ShortestLineHit :=
  ⟨segClosestDist pos ab.1 ab.2, segClosestPoint pos ab.1 ab.2, ⟨ab.1, ab.2⟩⟩

/-- Strict improvement over a running minimum starting at `Infinity`. -/
def beatsHit (d : ℝ) : Option ShortestLineHit → Prop
  | none => True
  | some h => d < h.dist

/-- The claim's reading of the planner's collision test: every segment is
tested against each obstacle inflated by the vehicle's collision radius. -/
def collidesInflated (P : RRTParams) (radius : ℝ) (a b : Vector2D) : Prop :=
  (∃ ob ∈ P.obstacles, lineIntersectsRectangle a b (inflateRect ob radius)) ∨
  outsideArena P b

/-- Written from the spec's words for the test shape: segment-vs-rectangle
via the four edge line-segment intersections plus an endpoint-inside-rectangle
check — applied here to the rectangle exactly as given. -/
def specSegmentRectTest (a b : Vector2D) (rect : Rectangle) : Prop :=
  (pointInRectangle a rect ∨ pointInRectangle b rect) ∨
    ∃ e ∈ rectEdges rect, lineSegmentsIntersect a b e.1 e.2

/-- A concrete planner with one obstacle, for the C2 counterexample. -/
def pC2 : RRTParams := ⟨[⟨100, 100, 10, 10⟩], 1000, 1000⟩

/-- An arena whose single obstacle contains the start position, so every
extension attempt collides. -/
def blockedParams : RRTParams := ⟨[⟨50, 50, 100, 100⟩], 200, 200⟩

/-- A constant random stream that never triggers the goal bias. -/
def randQuarter : ℕ → ℝ := fun _ => 0.25

/-- An obstacle-free small arena. -/
def openParams : RRTParams := ⟨[], 200, 200⟩

/-- The all-zero random stream (every draw triggers the goal bias). -/
def randZero : ℕ → ℝ := fun _ => 0

/-- Invariant of every node the planner ever inserts: its parent chain ends
at the start, and every hop was checked collision-free at insertion time. -/
inductive goodNode (P : RRTParams) (start : Vector2D) : RRTNode → Prop where
  | root : goodNode P start (.root start)
  | child {par : RRTNode} {pos : Vector2D} :
      goodNode P start par → ¬ collides P par.position pos →
      goodNode P start (.child pos par)

/-- A constant random stream. -/
def sampleRand : ℕ → ℝ := fun _ => 1

/-! Section: Shared helpers and sample inputs -/

/-- Evaluation helper for concrete square roots. -/
theorem sqrt_val {a b : ℝ} (hb : 0 ≤ b) (h : b * b = a) : Real.sqrt a = b := by
  rw [← h]; exact Real.sqrt_mul_self hb

/-! Section: C5 — fuel update in the controller dynamics -/

/-- C5 counterexample: the claim says the Controller's dynamics step yields
`fuel = max(0, fuel - thrust*dt)`; the code subtracts without clamping, so a
step from an empty tank under thrust 625 yields fuel −10, not 0. -/
theorem ddp_fuel_unclamped_counterexample :
    ¬ (∀ (p : DDPParams) (s : GameState) (c : ControlInput) (f : ℝ),
        s.fuel = some f →
        (dynamics p s c).fuel = some (max 0 (f - c.thrust * ddpDt))) := by
  intro h
  have h2 := h sampleDdp sampleState ⟨625, 0⟩ 0 rfl
  have h3 : (dynamics sampleDdp sampleState ⟨625, 0⟩).fuel =
      some ((0 : ℝ) - 625 * ddpDt) := by
    simp [dynamics, sampleState]
  rw [h3] at h2
  have h4 : (0 : ℝ) - 625 * ddpDt = max 0 (0 - 625 * ddpDt) :=
    Option.some.inj h2
  rw [ddpDt] at h4
  norm_num at h4

/-- C5 (amended): the Controller's dynamics subtracts `thrust*dt` from the
fuel without clamping (so rollout fuel can go negative), while the game
loop's physics step is the place that clamps fuel at zero; with nonnegative
thrust neither update ever increases the fuel, and the game-loop fuel is
never negative. -/
theorem fuel_update_characterization (p : DDPParams) (g : Vector2D)
    (s : GameState) (c : ControlInput) (f : ℝ)
    (hf : s.fuel = some f) (hthrust : 0 ≤ c.thrust) (hfnn : 0 ≤ f) :
    (dynamics p s c).fuel = some (f - c.thrust * ddpDt) ∧
    f - c.thrust * ddpDt ≤ f ∧
    (updatePhysics g s c).fuel = some (max 0 (f - c.thrust * gameLoopDt)) ∧
    0 ≤ max 0 (f - c.thrust * gameLoopDt) ∧
    max 0 (f - c.thrust * gameLoopDt) ≤ f := by
  have hdt : (0 : ℝ) ≤ ddpDt := by norm_num [ddpDt]
  have hgdt : (0 : ℝ) ≤ gameLoopDt := by norm_num [gameLoopDt]
  refine ⟨?_, ?_, ?_, le_max_left _ _, ?_⟩
  · simp [dynamics, hf]
  · exact sub_le_self _ (mul_nonneg hthrust hdt)
  · simp [updatePhysics, hf]
  · exact max_le hfnn (sub_le_self _ (mul_nonneg hthrust hgdt))

/-- C5 witness: the characterization applied to a concrete state. -/
theorem fuel_update_characterization_witness :
    (dynamics sampleDdp sampleState ⟨625, 0⟩).fuel =
      some ((0 : ℝ) - (625 : ℝ) * ddpDt) ∧
    (0 : ℝ) - (625 : ℝ) * ddpDt ≤ 0 ∧
    (updatePhysics ⟨0, 9.81⟩ sampleState ⟨625, 0⟩).fuel =
      some (max 0 ((0 : ℝ) - (625 : ℝ) * gameLoopDt)) ∧
    (0 : ℝ) ≤ max 0 ((0 : ℝ) - (625 : ℝ) * gameLoopDt) ∧
    max 0 ((0 : ℝ) - (625 : ℝ) * gameLoopDt) ≤ 0 :=
  fuel_update_characterization sampleDdp ⟨0, 9.81⟩ sampleState ⟨625, 0⟩ 0
    rfl (by norm_num) le_rfl

/-! Section: C6 — the ±1000 clamp and the controller rollouts -/

/-- C6 counterexample: the claim says every rollout state inside
`computeControl` keeps velocity and angular velocity within ±1000; with a
large (but in-range) candidate torque the very first simulated step already
has angular velocity 2000. -/
theorem rollout_velocity_unbounded_counterexample :
    ¬ (∀ (p : DDPParams) (s : GameState) (rand : ℕ → ℝ) (i t : ℕ),
        i < ddpIterations → 1 ≤ t → t ≤ ddpHorizon →
        |(rollout p s (candidateControl p rand i) t).angularVelocity| ≤ 1000) := by
  intro h
  have h2 := h sampleDdp sampleState sampleRand 0 1
    (by norm_num [ddpIterations]) le_rfl (by norm_num [ddpHorizon])
  have h3 : (rollout sampleDdp sampleState
      (candidateControl sampleDdp sampleRand 0) 1).angularVelocity = 2000 := by
    simp [rollout, dynamics, candidateControl, sampleRand, sampleState,
      sampleDdp, ddpDt]
    norm_num
  rw [h3] at h2
  norm_num at h2

/-- C6 (amended): no clamp exists in the Controller's forward simulation —
one dynamics step changes the velocity and angular velocity by exactly the
unclamped Euler update — while the ±1000 clamp is applied by the game loop's
physics step to the actual state before integration, so the values the game
loop integrates with are within ±1000. -/
theorem velocity_clamp_location (p : DDPParams) (g : Vector2D)
    (s : GameState) (c : ControlInput) :
    (dynamics p s c).velocity.x =
      s.velocity.x + c.thrust * Real.sin s.angle * ddpDt ∧
    (dynamics p s c).velocity.y =
      s.velocity.y + (-c.thrust * Real.cos s.angle + p.gravity) * ddpDt ∧
    (dynamics p s c).angularVelocity =
      s.angularVelocity + c.torque * ddpDt ∧
    (updatePhysics g s c).position.x =
      s.position.x + clampVelocity s.velocity.x * gameLoopDt ∧
    (updatePhysics g s c).position.y =
      s.position.y + clampVelocity s.velocity.y * gameLoopDt ∧
    (updatePhysics g s c).angularVelocity =
      clampVelocity s.angularVelocity + c.torque * gameLoopDt ∧
    |clampVelocity s.velocity.x| ≤ 1000 ∧
    |clampVelocity s.velocity.y| ≤ 1000 ∧
    |clampVelocity s.angularVelocity| ≤ 1000 := by
  have hcl : ∀ v : ℝ, |clampVelocity v| ≤ 1000 := by
    intro v
    rw [abs_le, clampVelocity]
    exact ⟨le_max_left _ _, max_le (by norm_num) (min_le_left _ _)⟩
  exact ⟨by simp [dynamics], by simp [dynamics], by simp [dynamics],
    by simp [updatePhysics], by simp [updatePhysics], by simp [updatePhysics],
    hcl _, hcl _, hcl _⟩

/-! Section: C8 — determinism of computeControl under a fixed random stream -/

/-- C8: with the random source made explicit (the TypeScript reads the hidden
global `Math.random()` instead), two `computeControl` calls with identical
state, identical parameters and identical random streams return identical
controls. -/
theorem computeControl_deterministic (p : DDPParams) (s : GameState)
    (r1 r2 : ℕ → ℝ) (h : ∀ k, r1 k = r2 k) :
    computeControl p s r1 = computeControl p s r2 := by
  rw [funext h]

/-- C8 witness: determinism at a concrete state and stream. -/
theorem computeControl_deterministic_witness :
    computeControl sampleDdp sampleState sampleRand =
      computeControl sampleDdp sampleState sampleRand :=
  computeControl_deterministic sampleDdp sampleState sampleRand sampleRand
    (fun _ => rfl)

/-! Section: C10 — queries on waypoint lists with fewer than two points -/

/-- Lists with fewer than two points have no consecutive pairs. -/
theorem segPairs_short {l : List Vector2D} (h : l.length < 2) :
    segPairs l = [] := by
  match l, h with
  | [], _ => rfl
  | [a], _ => rfl

/-- C10: with fewer than two waypoints the query loop never runs, so the
result is the `{Infinity, null, null}` record (`none`), and needsReplanning
is true for every (finite) threshold. -/
theorem short_waypointlist_replanning (ip : PathInterpolator)
    (pos : Vector2D) (wps : List Vector2D) (h : wps.length < 2) :
    getShortestLineToPath wps pos = none ∧ needsReplanning ip pos wps := by
  have hq : getShortestLineToPath wps pos = none := by
    rw [getShortestLineToPath, segPairs_short h]
    rfl
  refine ⟨hq, ?_⟩
  rw [needsReplanning, hq]
  trivial

/-- C10 witness: a singleton waypoint list. -/
theorem short_waypointlist_replanning_witness :
    getShortestLineToPath [(⟨3, 4⟩ : Vector2D)] ⟨0, 0⟩ = none ∧
    needsReplanning ⟨150, 200⟩ ⟨0, 0⟩ [(⟨3, 4⟩ : Vector2D)] :=
  short_waypointlist_replanning ⟨150, 200⟩ ⟨0, 0⟩ [⟨3, 4⟩] (by norm_num)

/-! Section: Characterization of the shortest-line-to-path fold -/

theorem beatsHit_none (d : ℝ) : beatsHit d none := trivial

theorem beatsHit_some (d : ℝ) (h : ShortestLineHit) :
    beatsHit d (some h) ↔ d < h.dist := Iff.rfl

/-- One loop body, restated through `mkHit`. -/
theorem shortestLineStep_eq (pos : Vector2D) (acc : Option ShortestLineHit)
    (ab : Vector2D × Vector2D) (hnd : ¬ degenerateSeg ab) :
    shortestLineStep pos acc ab =
      if beatsHit (segClosestDist pos ab.1 ab.2) acc then some (mkHit pos ab)
      else acc := by
  rw [shortestLineStep,
    if_neg (show ¬ (ab.1.x = ab.2.x ∧ ab.1.y = ab.2.y) from hnd)]
  cases acc with
  | none =>
    rw [if_pos (beatsHit_none _)]
    rfl
  | some best =>
    by_cases hlt : segClosestDist pos ab.1 ab.2 < best.dist
    · rw [if_pos ((beatsHit_some _ _).mpr hlt)]
      show (if segClosestDist pos ab.1 ab.2 < best.dist
          then some (mkHit pos ab) else some best) = some (mkHit pos ab)
      rw [if_pos hlt]
    · rw [if_neg (fun hc => hlt ((beatsHit_some _ _).mp hc))]
      show (if segClosestDist pos ab.1 ab.2 < best.dist
          then some (mkHit pos ab) else some best) = some best
      rw [if_neg hlt]

/-- Characterization of the query fold over nondegenerate segments: either no
segment strictly beats the incoming accumulator (which is then returned
unchanged), or the result is the hit of the segment with index `k`: the one
that strictly beats the accumulator and every earlier segment, and is no
worse than any segment of the list — i.e. the earliest minimum. -/
theorem foldl_shortest_char (pos : Vector2D) :
    ∀ (l : List (Vector2D × Vector2D)) (acc : Option ShortestLineHit),
    (∀ ab ∈ l, ¬ degenerateSeg ab) →
    (l.foldl (shortestLineStep pos) acc = acc ∧
      ∀ j < l.length,
        ¬ beatsHit (segClosestDist pos (pnth l j).1 (pnth l j).2) acc) ∨
    (∃ k, k < l.length ∧
      l.foldl (shortestLineStep pos) acc = some (mkHit pos (pnth l k)) ∧
      beatsHit (segClosestDist pos (pnth l k).1 (pnth l k).2) acc ∧
      (∀ j < k, segClosestDist pos (pnth l k).1 (pnth l k).2 <
        segClosestDist pos (pnth l j).1 (pnth l j).2) ∧
      (∀ j < l.length, segClosestDist pos (pnth l k).1 (pnth l k).2 ≤
        segClosestDist pos (pnth l j).1 (pnth l j).2)) := by
  intro l
  induction l with
  | nil =>
    intro acc _
    left
    exact ⟨rfl, fun j hj => absurd hj (by simp)⟩
  | cons ab rest ih =>
    intro acc hnd
    have hndab : ¬ degenerateSeg ab := hnd ab (List.mem_cons_self ab rest)
    have hndrest : ∀ x ∈ rest, ¬ degenerateSeg x :=
      fun x hx => hnd x (List.mem_cons_of_mem _ hx)
    have hp0 : pnth (ab :: rest) 0 = ab := rfl
    have hps : ∀ j, pnth (ab :: rest) (j + 1) = pnth rest j := fun j => rfl
    rw [List.foldl_cons, shortestLineStep_eq pos acc ab hndab]
    set d0 := segClosestDist pos ab.1 ab.2 with hd0
    by_cases hbeat : beatsHit d0 acc
    · -- the head segment updates the accumulator
      rw [if_pos hbeat]
      rcases ih (some (mkHit pos ab)) hndrest with ⟨heq, hnb⟩ | ⟨k, hk, heq, hb, hstrict, hle⟩
      · -- nothing in the rest beats the head: the head wins
        right
        refine ⟨0, by simp, ?_, ?_, fun j hj => absurd hj (by omega), ?_⟩
        · rw [heq, hp0]
        · rw [hp0]; exact hbeat
        · intro j hj
          cases j with
          | zero => exact le_refl _
          | succ j =>
            have := hnb j (by simpa using hj)
            rw [beatsHit_some] at this
            rw [hp0, hps]
            exact le_of_not_gt (by simpa [mkHit] using this)
      · -- some rest segment wins; it also beats the head
        right
        have hbd : segClosestDist pos (pnth rest k).1 (pnth rest k).2 <
            d0 := by
          have := hb
          rw [beatsHit_some] at this
          simpa [mkHit] using this
        refine ⟨k + 1, by simp only [List.length_cons]; omega, ?_, ?_, ?_, ?_⟩
        · rw [heq, hps]
        · rw [hps]
          cases acc with
          | none => exact trivial
          | some best =>
            rw [beatsHit_some]
            rw [beatsHit_some] at hbeat
            exact lt_trans hbd hbeat
        · intro j hj
          cases j with
          | zero => rw [hps, hp0]; exact hbd
          | succ j =>
            rw [hps, hps]
            exact hstrict j (by omega)
        · intro j hj
          cases j with
          | zero => rw [hps, hp0]; exact le_of_lt hbd
          | succ j =>
            rw [hps, hps]
            exact hle j (by simpa using hj)
    · -- the head segment does not update the accumulator
      rw [if_neg hbeat]
      rcases ih acc hndrest with ⟨heq, hnb⟩ | ⟨k, hk, heq, hb, hstrict, hle⟩
      · left
        refine ⟨heq, ?_⟩
        intro j hj
        cases j with
        | zero => rw [hp0]; exact hbeat
        | succ j => rw [hps]; exact hnb j (by simpa using hj)
      · right
        -- the winner also beats the head segment, because the head did not
        -- even beat the accumulator the winner beat
        have hkd : segClosestDist pos (pnth rest k).1 (pnth rest k).2 < d0 := by
          cases acc with
          | none => exact absurd trivial hbeat
          | some best =>
            rw [beatsHit_some] at hb
            have hd0ge : best.dist ≤ d0 := le_of_not_gt fun hc =>
              hbeat ((beatsHit_some _ _).mpr hc)
            exact lt_of_lt_of_le hb hd0ge
        refine ⟨k + 1, by simp only [List.length_cons]; omega, ?_, ?_, ?_, ?_⟩
        · rw [heq, hps]
        · rw [hps]; exact hb
        · intro j hj
          cases j with
          | zero => rw [hps, hp0]; exact hkd
          | succ j =>
            rw [hps, hps]
            exact hstrict j (by omega)
        · intro j hj
          cases j with
          | zero => rw [hps, hp0]; exact le_of_lt hkd
          | succ j =>
            rw [hps, hps]
            exact hle j (by simpa using hj)

/-- Length of the consecutive-pair list. -/
theorem segPairs_length : ∀ l : List Vector2D,
    (segPairs l).length = l.length - 1
  | [] => rfl
  | [_] => rfl
  | a :: b :: r => by
    rw [segPairs]
    have := segPairs_length (b :: r)
    simp only [List.length_cons] at this ⊢
    omega

/-- The `i`-th consecutive pair is `(path[i], path[i+1])`. -/
theorem segPairs_pnth : ∀ (l : List Vector2D) (i : ℕ), i < l.length - 1 →
    pnth (segPairs l) i = (nth l i, nth l (i + 1))
  | a :: b :: r, 0, _ => rfl
  | a :: b :: r, i + 1, h => by
    have hr : i < (b :: r).length - 1 := by
      simp only [List.length_cons] at h ⊢
      omega
    have := segPairs_pnth (b :: r) i hr
    rw [segPairs]
    show pnth (segPairs (b :: r)) i = _
    rw [this]
    rfl

/-- Membership in the consecutive-pair list comes from an index. -/
theorem segPairs_mem {l : List Vector2D} {ab : Vector2D × Vector2D}
    (h : ab ∈ segPairs l) :
    ∃ i < l.length - 1, ab = (nth l i, nth l (i + 1)) := by
  obtain ⟨⟨n, hn⟩, hget⟩ := List.mem_iff_get.mp h
  have hlen : n < l.length - 1 := by
    have := segPairs_length l
    omega
  refine ⟨n, hlen, ?_⟩
  rw [← segPairs_pnth l n hlen, pnth, List.getD_eq_get _ _ hn, hget]

/-! Section: C3 — the shortest-line query is the earliest clamped-projection argmin -/

theorem ex3_pt0 : segClosestPoint ⟨1, 5⟩ ⟨0, 0⟩ ⟨10, 0⟩ = ⟨1, 0⟩ := by
  rw [segClosestPoint]
  norm_num [Vector2D.mk.injEq]

theorem ex3_d0 : segClosestDist ⟨1, 5⟩ ⟨0, 0⟩ ⟨10, 0⟩ = 5 := by
  rw [segClosestDist, ex3_pt0, distanceBetween]
  exact sqrt_val (by norm_num) (by norm_num)

theorem ex3_pt1 : segClosestPoint ⟨1, 5⟩ ⟨10, 0⟩ ⟨10, 10⟩ = ⟨10, 5⟩ := by
  rw [segClosestPoint]
  norm_num [Vector2D.mk.injEq]

theorem ex3_d1 : segClosestDist ⟨1, 5⟩ ⟨10, 0⟩ ⟨10, 10⟩ = 9 := by
  rw [segClosestDist, ex3_pt1, distanceBetween]
  exact sqrt_val (by norm_num) (by norm_num)

theorem ex4_pt0 : segClosestPoint ⟨11, -1⟩ ⟨0, 0⟩ ⟨10, 0⟩ = ⟨10, 0⟩ := by
  rw [segClosestPoint]
  norm_num [Vector2D.mk.injEq]

theorem ex4_d0 : segClosestDist ⟨11, -1⟩ ⟨0, 0⟩ ⟨10, 0⟩ = Real.sqrt 2 := by
  rw [segClosestDist, ex4_pt0, distanceBetween]
  norm_num

theorem ex4_pt1 : segClosestPoint ⟨11, -1⟩ ⟨10, 0⟩ ⟨10, 10⟩ = ⟨10, 0⟩ := by
  rw [segClosestPoint]
  norm_num [Vector2D.mk.injEq]

theorem ex4_d1 : segClosestDist ⟨11, -1⟩ ⟨10, 0⟩ ⟨10, 10⟩ = Real.sqrt 2 := by
  rw [segClosestDist, ex4_pt1, distanceBetween]
  norm_num

theorem shortestLine_example1 :
    getShortestLineToPath [⟨0, 0⟩, ⟨10, 0⟩, ⟨10, 10⟩] ⟨1, 5⟩ =
      some ⟨5, ⟨1, 0⟩, ⟨⟨0, 0⟩, ⟨10, 0⟩⟩⟩ := by
  have hnd0 : ¬ degenerateSeg ((⟨0, 0⟩ : Vector2D), (⟨10, 0⟩ : Vector2D)) := by
    norm_num [degenerateSeg]
  have hnd1 : ¬ degenerateSeg ((⟨10, 0⟩ : Vector2D), (⟨10, 10⟩ : Vector2D)) := by
    norm_num [degenerateSeg]
  have h1 : mkHit ⟨1, 5⟩ ((⟨0, 0⟩ : Vector2D), (⟨10, 0⟩ : Vector2D)) =
      ⟨5, ⟨1, 0⟩, ⟨⟨0, 0⟩, ⟨10, 0⟩⟩⟩ := by
    rw [mkHit]
    rw [show ((⟨0, 0⟩ : Vector2D), (⟨10, 0⟩ : Vector2D)).1 = ⟨0, 0⟩ from rfl,
      show ((⟨0, 0⟩ : Vector2D), (⟨10, 0⟩ : Vector2D)).2 = ⟨10, 0⟩ from rfl,
      ex3_d0, ex3_pt0]
  rw [getShortestLineToPath,
    show segPairs [(⟨0, 0⟩ : Vector2D), ⟨10, 0⟩, ⟨10, 10⟩] =
      [(⟨0, 0⟩, ⟨10, 0⟩), (⟨10, 0⟩, ⟨10, 10⟩)] from rfl,
    List.foldl_cons, List.foldl_cons, List.foldl_nil,
    shortestLineStep_eq _ _ _ hnd0, if_pos (beatsHit_none _), h1,
    shortestLineStep_eq _ _ _ hnd1]
  rw [if_neg]
  intro hc
  rw [beatsHit_some,
    show ((⟨10, 0⟩ : Vector2D), (⟨10, 10⟩ : Vector2D)).1 = ⟨10, 0⟩ from rfl,
    show ((⟨10, 0⟩ : Vector2D), (⟨10, 10⟩ : Vector2D)).2 = ⟨10, 10⟩ from rfl,
    ex3_d1] at hc
  norm_num at hc

theorem shortestLine_example2 :
    getShortestLineToPath [⟨0, 0⟩, ⟨10, 0⟩, ⟨10, 10⟩] ⟨11, -1⟩ =
      some ⟨Real.sqrt 2, ⟨10, 0⟩, ⟨⟨0, 0⟩, ⟨10, 0⟩⟩⟩ := by
  have hnd0 : ¬ degenerateSeg ((⟨0, 0⟩ : Vector2D), (⟨10, 0⟩ : Vector2D)) := by
    norm_num [degenerateSeg]
  have hnd1 : ¬ degenerateSeg ((⟨10, 0⟩ : Vector2D), (⟨10, 10⟩ : Vector2D)) := by
    norm_num [degenerateSeg]
  have h1 : mkHit ⟨11, -1⟩ ((⟨0, 0⟩ : Vector2D), (⟨10, 0⟩ : Vector2D)) =
      ⟨Real.sqrt 2, ⟨10, 0⟩, ⟨⟨0, 0⟩, ⟨10, 0⟩⟩⟩ := by
    rw [mkHit]
    rw [show ((⟨0, 0⟩ : Vector2D), (⟨10, 0⟩ : Vector2D)).1 = ⟨0, 0⟩ from rfl,
      show ((⟨0, 0⟩ : Vector2D), (⟨10, 0⟩ : Vector2D)).2 = ⟨10, 0⟩ from rfl,
      ex4_d0, ex4_pt0]
  rw [getShortestLineToPath,
    show segPairs [(⟨0, 0⟩ : Vector2D), ⟨10, 0⟩, ⟨10, 10⟩] =
      [(⟨0, 0⟩, ⟨10, 0⟩), (⟨10, 0⟩, ⟨10, 10⟩)] from rfl,
    List.foldl_cons, List.foldl_cons, List.foldl_nil,
    shortestLineStep_eq _ _ _ hnd0, if_pos (beatsHit_none _), h1,
    shortestLineStep_eq _ _ _ hnd1]
  rw [if_neg]
  intro hc
  rw [beatsHit_some,
    show ((⟨10, 0⟩ : Vector2D), (⟨10, 10⟩ : Vector2D)).1 = ⟨10, 0⟩ from rfl,
    show ((⟨10, 0⟩ : Vector2D), (⟨10, 10⟩ : Vector2D)).2 = ⟨10, 10⟩ from rfl,
    ex4_d1] at hc
  exact absurd hc (lt_irrefl _)

/-- C3: for a polyline with no zero-length segment, the query returns the
clamped-projection hit of the segment with index `k` that is no further than
every segment and strictly closer than every earlier segment (earliest
argmin, strict-improvement tie-breaking); and the two concrete cases of the
spec: on the path [(0,0),(10,0),(10,10)] the query at (1,5) returns distance
5 with cross-section point (1,0), and the query at (11,−1) returns distance
√2 with cross-section point (10,0) owned by the first segment. -/
theorem shortestLine_argmin (path : List Vector2D) (pos : Vector2D)
    (hlen : 2 ≤ path.length)
    (hnd : ∀ i < path.length - 1,
      ¬ degenerateSeg (nth path i, nth path (i + 1))) :
    (∃ k < path.length - 1,
      getShortestLineToPath path pos =
        some ⟨segClosestDist pos (nth path k) (nth path (k + 1)),
              segClosestPoint pos (nth path k) (nth path (k + 1)),
              ⟨nth path k, nth path (k + 1)⟩⟩ ∧
      (∀ j < k, segClosestDist pos (nth path k) (nth path (k + 1)) <
        segClosestDist pos (nth path j) (nth path (j + 1))) ∧
      (∀ j < path.length - 1,
        segClosestDist pos (nth path k) (nth path (k + 1)) ≤
        segClosestDist pos (nth path j) (nth path (j + 1)))) ∧
    getShortestLineToPath [⟨0, 0⟩, ⟨10, 0⟩, ⟨10, 10⟩] ⟨1, 5⟩ =
      some ⟨5, ⟨1, 0⟩, ⟨⟨0, 0⟩, ⟨10, 0⟩⟩⟩ ∧
    getShortestLineToPath [⟨0, 0⟩, ⟨10, 0⟩, ⟨10, 10⟩] ⟨11, -1⟩ =
      some ⟨Real.sqrt 2, ⟨10, 0⟩, ⟨⟨0, 0⟩, ⟨10, 0⟩⟩⟩ := by
  refine ⟨?_, shortestLine_example1, shortestLine_example2⟩
  have hndall : ∀ ab ∈ segPairs path, ¬ degenerateSeg ab := by
    intro ab hab
    obtain ⟨i, hi, rfl⟩ := segPairs_mem hab
    exact hnd i hi
  rcases foldl_shortest_char pos (segPairs path) none hndall with
    ⟨_, hnb⟩ | ⟨k, hk, heq, _, hstrict, hle⟩
  · exfalso
    have h0 : 0 < (segPairs path).length := by rw [segPairs_length]; omega
    exact hnb 0 h0 (beatsHit_none _)
  · have hk' : k < path.length - 1 := by rwa [segPairs_length] at hk
    refine ⟨k, hk', ?_, ?_, ?_⟩
    · rw [getShortestLineToPath, heq, segPairs_pnth path k hk']
      rfl
    · intro j hj
      have hj' : j < path.length - 1 := by omega
      have := hstrict j hj
      rwa [segPairs_pnth path k hk', segPairs_pnth path j hj'] at this
    · intro j hj
      have := hle j (by rw [segPairs_length]; omega)
      rwa [segPairs_pnth path k hk', segPairs_pnth path j hj] at this

/-- C3 witness: both exactness cases of the spec, via the theorem. -/
theorem shortestLine_argmin_witness :
    getShortestLineToPath [⟨0, 0⟩, ⟨10, 0⟩, ⟨10, 10⟩] ⟨1, 5⟩ =
      some ⟨5, ⟨1, 0⟩, ⟨⟨0, 0⟩, ⟨10, 0⟩⟩⟩ ∧
    getShortestLineToPath [⟨0, 0⟩, ⟨10, 0⟩, ⟨10, 10⟩] ⟨11, -1⟩ =
      some ⟨Real.sqrt 2, ⟨10, 0⟩, ⟨⟨0, 0⟩, ⟨10, 0⟩⟩⟩ := by
  obtain ⟨-, he1, he2⟩ :=
    shortestLine_argmin [⟨0, 0⟩, ⟨10, 0⟩, ⟨10, 10⟩] ⟨1, 5⟩ (by norm_num)
      (by
        intro i hi
        have hi2 : i < 2 := by simpa using hi
        interval_cases i <;> norm_num [degenerateSeg, nth])
  exact ⟨he1, he2⟩

/-! Section: C4 — the interpolator's off-path steer-back branch -/

/-- Every `some` result of the query fold is the hit of one of the folded
segments (or was already the accumulator). -/
theorem foldl_some_origin (pos : Vector2D) :
    ∀ (l : List (Vector2D × Vector2D)) (acc : Option ShortestLineHit)
      (hit : ShortestLineHit),
    l.foldl (shortestLineStep pos) acc = some hit →
    acc = some hit ∨ ∃ ab ∈ l, hit = mkHit pos ab := by
  intro l
  induction l with
  | nil => intro acc hit h; exact Or.inl h
  | cons ab rest ih =>
    intro acc hit h
    rw [List.foldl_cons] at h
    rcases ih _ hit h with hacc | ⟨ab', hmem, rfl⟩
    · by_cases hd : degenerateSeg ab
      · rw [shortestLineStep,
          if_pos (show ab.1.x = ab.2.x ∧ ab.1.y = ab.2.y from hd)] at hacc
        exact Or.inl hacc
      · rw [shortestLineStep_eq _ _ _ hd] at hacc
        split_ifs at hacc with hb
        · exact Or.inr ⟨ab, List.mem_cons_self ab rest,
            (Option.some.inj hacc).symm⟩
        · exact Or.inl hacc
    · exact Or.inr ⟨ab', List.mem_cons_of_mem _ hmem, rfl⟩

/-- A `some` answer of getShortestLineToPath is the clamped-projection hit of
one consecutive waypoint pair. -/
theorem getShortestLineToPath_some {path : List Vector2D} {pos : Vector2D}
    {hit : ShortestLineHit}
    (h : getShortestLineToPath path pos = some hit) :
    ∃ i < path.length - 1, hit = mkHit pos (nth path i, nth path (i + 1)) := by
  rcases foldl_some_origin pos (segPairs path) none hit h with hacc | ⟨ab, hmem, rfl⟩
  · exact absurd hacc (by simp)
  · obtain ⟨i, hi, rfl⟩ := segPairs_mem hmem
    exact ⟨i, hi, rfl⟩

/-- The JavaScript findIndex finds an index no later than any index whose
element satisfies the test. -/
theorem jsFindIndex_le {p : Vector2D → Prop} :
    ∀ (l : List Vector2D) (i : ℕ), i < l.length → p (nth l i) →
    ∃ j, jsFindIndex p l = some j ∧ j ≤ i := by
  intro l
  induction l with
  | nil => intro i hi _; exact absurd hi (by simp)
  | cons w rest ih =>
    intro i hi hp
    rw [jsFindIndex]
    by_cases hw : p w
    · exact ⟨0, by rw [if_pos hw], Nat.zero_le i⟩
    · cases i with
      | zero => exact absurd hp hw
      | succ i =>
        obtain ⟨j, hj, hji⟩ := ih i (by simpa using hi) hp
        exact ⟨j + 1, by rw [if_neg hw, hj]; rfl, by omega⟩

/-- The steer-back branch of getInterpolatedTarget, in isolation. -/
theorem interp_steerback_eq (ip : PathInterpolator) (pos : Vector2D)
    (wps : List Vector2D) (tgt : Vector2D) (hit : ShortestLineHit)
    (hq : getShortestLineToPath wps pos = some hit)
    (hfar : min ip.lookaheadDistance
      (distanceBetween pos (wps.getLastD ⟨0, 0⟩)) ≤ hit.dist) :
    getInterpolatedTarget ip pos wps tgt =
      getVectorBetweenPoints pos hit.point pos
        (min ip.lookaheadDistance (distanceBetween pos (wps.getLastD ⟨0, 0⟩))) := by
  obtain ⟨i, hi, hhit⟩ := getShortestLineToPath_some hq
  have hlen2 : 2 ≤ wps.length := by omega
  have hstart : hit.seg.segStart = nth wps i := by rw [hhit]; rfl
  have hpred : (fun w => w.x = hit.seg.segStart.x ∧ w.y = hit.seg.segStart.y)
      (nth wps i) := by rw [hstart]; exact ⟨rfl, rfl⟩
  obtain ⟨j, hj, hji⟩ := jsFindIndex_le
    (p := fun w => w.x = hit.seg.segStart.x ∧ w.y = hit.seg.segStart.y)
    wps i (by omega) hpred
  rw [getInterpolatedTarget, if_neg (show ¬ wps.length = 0 by omega)]
  simp only [hq, hj]
  rw [if_pos (show j < wps.length - 1 by omega),
    if_neg (not_lt.mpr hfar)]

/-- The steer-back branch written out coordinatewise (the direction-vector
length computed by getVectorBetweenPoints equals the query distance). -/
theorem interp_steerback_formula (ip : PathInterpolator) (pos : Vector2D)
    (wps : List Vector2D) (tgt : Vector2D) (hit : ShortestLineHit)
    (hq : getShortestLineToPath wps pos = some hit)
    (hfar : min ip.lookaheadDistance
      (distanceBetween pos (wps.getLastD ⟨0, 0⟩)) ≤ hit.dist)
    (hd0 : 0 < hit.dist) :
    getInterpolatedTarget ip pos wps tgt =
      ⟨pos.x + (hit.point.x - pos.x) *
          (min ip.lookaheadDistance
            (distanceBetween pos (wps.getLastD ⟨0, 0⟩))) / hit.dist,
       pos.y + (hit.point.y - pos.y) *
          (min ip.lookaheadDistance
            (distanceBetween pos (wps.getLastD ⟨0, 0⟩))) / hit.dist⟩ := by
  obtain ⟨i, hi, hhit⟩ := getShortestLineToPath_some hq
  have hdist : hit.dist = distanceBetween pos hit.point := by
    rw [hhit]; rfl
  have hlen : distanceBetween ⟨0, 0⟩
      ⟨hit.point.x - pos.x, hit.point.y - pos.y⟩ = hit.dist := by
    rw [hdist, distanceBetween, distanceBetween]
    congr 1
    ring
  rw [interp_steerback_eq ip pos wps tgt hit hq hfar, getVectorBetweenPoints,
    if_neg (show ¬ distanceBetween ⟨0, 0⟩
      ⟨hit.point.x - pos.x, hit.point.y - pos.y⟩ = 0 by
        rw [hlen]; exact ne_of_gt hd0), hlen]

/-- The concrete off-path example: waypoints [(0,0),(50,0),(150,0)], vehicle
at (−1000,0), lookahead 100 — the aim-point is (−900,0). -/
theorem ex5_query :
    getShortestLineToPath [⟨0, 0⟩, ⟨50, 0⟩, ⟨150, 0⟩] ⟨-1000, 0⟩ =
      some ⟨1000, ⟨0, 0⟩, ⟨⟨0, 0⟩, ⟨50, 0⟩⟩⟩ := by
  have hnd0 : ¬ degenerateSeg ((⟨0, 0⟩ : Vector2D), (⟨50, 0⟩ : Vector2D)) := by
    norm_num [degenerateSeg]
  have hnd1 : ¬ degenerateSeg ((⟨50, 0⟩ : Vector2D), (⟨150, 0⟩ : Vector2D)) := by
    norm_num [degenerateSeg]
  have hpt0 : segClosestPoint ⟨-1000, 0⟩ ⟨0, 0⟩ ⟨50, 0⟩ = ⟨0, 0⟩ := by
    rw [segClosestPoint]
    norm_num
  have hd0 : segClosestDist ⟨-1000, 0⟩ ⟨0, 0⟩ ⟨50, 0⟩ = 1000 := by
    rw [segClosestDist, hpt0, distanceBetween]
    exact sqrt_val (by norm_num) (by norm_num)
  have hpt1 : segClosestPoint ⟨-1000, 0⟩ ⟨50, 0⟩ ⟨150, 0⟩ = ⟨50, 0⟩ := by
    rw [segClosestPoint]
    norm_num
  have hd1 : segClosestDist ⟨-1000, 0⟩ ⟨50, 0⟩ ⟨150, 0⟩ = 1050 := by
    rw [segClosestDist, hpt1, distanceBetween]
    exact sqrt_val (by norm_num) (by norm_num)
  have h1 : mkHit ⟨-1000, 0⟩ ((⟨0, 0⟩ : Vector2D), (⟨50, 0⟩ : Vector2D)) =
      ⟨1000, ⟨0, 0⟩, ⟨⟨0, 0⟩, ⟨50, 0⟩⟩⟩ := by
    rw [mkHit]
    rw [show ((⟨0, 0⟩ : Vector2D), (⟨50, 0⟩ : Vector2D)).1 = ⟨0, 0⟩ from rfl,
      show ((⟨0, 0⟩ : Vector2D), (⟨50, 0⟩ : Vector2D)).2 = ⟨50, 0⟩ from rfl,
      hd0, hpt0]
  rw [getShortestLineToPath,
    show segPairs [(⟨0, 0⟩ : Vector2D), ⟨50, 0⟩, ⟨150, 0⟩] =
      [(⟨0, 0⟩, ⟨50, 0⟩), (⟨50, 0⟩, ⟨150, 0⟩)] from rfl,
    List.foldl_cons, List.foldl_cons, List.foldl_nil,
    shortestLineStep_eq _ _ _ hnd0, if_pos (beatsHit_none _), h1,
    shortestLineStep_eq _ _ _ hnd1]
  rw [if_neg]
  intro hc
  rw [beatsHit_some,
    show ((⟨50, 0⟩ : Vector2D), (⟨150, 0⟩ : Vector2D)).1 = ⟨50, 0⟩ from rfl,
    show ((⟨50, 0⟩ : Vector2D), (⟨150, 0⟩ : Vector2D)).2 = ⟨150, 0⟩ from rfl,
    hd1] at hc
  norm_num at hc

/-- The concrete example, end to end. -/
theorem interp_offpath_example :
    getInterpolatedTarget ⟨100, 200⟩ ⟨-1000, 0⟩ [⟨0, 0⟩, ⟨50, 0⟩, ⟨150, 0⟩]
      ⟨300, 0⟩ = ⟨-900, 0⟩ := by
  have hlast : ([(⟨0, 0⟩ : Vector2D), ⟨50, 0⟩, ⟨150, 0⟩].getLastD ⟨0, 0⟩) =
      ⟨150, 0⟩ := rfl
  have hdl : distanceBetween ⟨-1000, 0⟩ ⟨150, 0⟩ = 1150 := by
    rw [distanceBetween]
    exact sqrt_val (by norm_num) (by norm_num)
  have hfar : min (⟨100, 200⟩ : PathInterpolator).lookaheadDistance
      (distanceBetween ⟨-1000, 0⟩
        ([(⟨0, 0⟩ : Vector2D), ⟨50, 0⟩, ⟨150, 0⟩].getLastD ⟨0, 0⟩)) ≤
      (⟨1000, ⟨0, 0⟩, ⟨⟨0, 0⟩, ⟨50, 0⟩⟩⟩ : ShortestLineHit).dist := by
    rw [hlast, hdl]
    show min (100 : ℝ) 1150 ≤ 1000
    norm_num
  have h := interp_steerback_formula ⟨100, 200⟩ ⟨-1000, 0⟩
    [⟨0, 0⟩, ⟨50, 0⟩, ⟨150, 0⟩] ⟨300, 0⟩ ⟨1000, ⟨0, 0⟩, ⟨⟨0, 0⟩, ⟨50, 0⟩⟩⟩
    ex5_query hfar (by norm_num)
  rw [hlast, hdl] at h
  rw [h]
  show (⟨-1000 + ((0 : ℝ) - -1000) * min (100 : ℝ) 1150 / 1000,
    0 + ((0 : ℝ) - 0) * min (100 : ℝ) 1150 / 1000⟩ : Vector2D) = ⟨-900, 0⟩
  norm_num [Vector2D.mk.injEq]

/-- C4: whenever the perpendicular distance `d` of the query is at least
`L = min(lookahead, distance to the last waypoint)`, the interpolated target
is the point exactly `L` along the straight line from the current position
toward the cross-section point; and the concrete off-path case of the spec:
waypoints [(0,0),(50,0),(150,0)], position (−1000,0), lookahead 100 gives
exactly (−900,0). -/
theorem interpolator_steer_back (ip : PathInterpolator) (pos : Vector2D)
    (wps : List Vector2D) (tgt : Vector2D) (hit : ShortestLineHit)
    (hq : getShortestLineToPath wps pos = some hit)
    (hfar : min ip.lookaheadDistance
      (distanceBetween pos (wps.getLastD ⟨0, 0⟩)) ≤ hit.dist) :
    (getInterpolatedTarget ip pos wps tgt =
      getVectorBetweenPoints pos hit.point pos
        (min ip.lookaheadDistance (distanceBetween pos (wps.getLastD ⟨0, 0⟩)))) ∧
    (0 < hit.dist →
      getInterpolatedTarget ip pos wps tgt =
        ⟨pos.x + (hit.point.x - pos.x) *
            (min ip.lookaheadDistance
              (distanceBetween pos (wps.getLastD ⟨0, 0⟩))) / hit.dist,
         pos.y + (hit.point.y - pos.y) *
            (min ip.lookaheadDistance
              (distanceBetween pos (wps.getLastD ⟨0, 0⟩))) / hit.dist⟩) ∧
    getInterpolatedTarget ⟨100, 200⟩ ⟨-1000, 0⟩ [⟨0, 0⟩, ⟨50, 0⟩, ⟨150, 0⟩]
      ⟨300, 0⟩ = ⟨-900, 0⟩ := by
  have hmain := interp_steerback_eq ip pos wps tgt hit hq hfar
  refine ⟨hmain, ?_, interp_offpath_example⟩
  intro hd0
  obtain ⟨i, hi, hhit⟩ := getShortestLineToPath_some hq
  have hdist : hit.dist = distanceBetween pos hit.point := by
    rw [hhit]; rfl
  have hlen : distanceBetween ⟨0, 0⟩
      ⟨hit.point.x - pos.x, hit.point.y - pos.y⟩ = hit.dist := by
    rw [hdist, distanceBetween, distanceBetween]
    congr 1
    ring
  rw [hmain, getVectorBetweenPoints,
    if_neg (show ¬ distanceBetween ⟨0, 0⟩
      ⟨hit.point.x - pos.x, hit.point.y - pos.y⟩ = 0 by
        rw [hlen]; exact ne_of_gt hd0), hlen]

/-- C4 witness: the off-path example via the theorem (distance 1000 ≥
lookahead 100), with the exact aim-point derived. -/
theorem interpolator_steer_back_witness :
    getInterpolatedTarget ⟨100, 200⟩ ⟨-1000, 0⟩ [⟨0, 0⟩, ⟨50, 0⟩, ⟨150, 0⟩]
      ⟨300, 0⟩ = ⟨-900, 0⟩ := by
  obtain ⟨-, -, hex⟩ := interpolator_steer_back ⟨100, 200⟩ ⟨-1000, 0⟩
    [⟨0, 0⟩, ⟨50, 0⟩, ⟨150, 0⟩] ⟨300, 0⟩ ⟨1000, ⟨0, 0⟩, ⟨⟨0, 0⟩, ⟨50, 0⟩⟩⟩
    ex5_query
    (by
      rw [show ([(⟨0, 0⟩ : Vector2D), ⟨50, 0⟩, ⟨150, 0⟩].getLastD ⟨0, 0⟩) =
        ⟨150, 0⟩ from rfl,
        show distanceBetween ⟨-1000, 0⟩ ⟨150, 0⟩ = 1150 from
          by rw [distanceBetween]; exact sqrt_val (by norm_num) (by norm_num)]
      norm_num)
  exact hex

/-! Section: C2 — what the planner's collision checks actually test -/

/-- C2 counterexample: the segment (120,105)–(130,105) passes within the
default vehicle radius 15 of the obstacle (100,100,10,10) — it hits the
inflated rectangle — yet the planner's collides test accepts it, because the
planner checks the raw rectangle only. -/
theorem planner_inflation_counterexample :
    ¬ collides pC2 ⟨120, 105⟩ ⟨130, 105⟩ ∧
    collidesInflated pC2 15 ⟨120, 105⟩ ⟨130, 105⟩ ∧
    ¬ (collides pC2 ⟨120, 105⟩ ⟨130, 105⟩ ↔
       collidesInflated pC2 15 ⟨120, 105⟩ ⟨130, 105⟩) := by
  have hno : ¬ collides pC2 ⟨120, 105⟩ ⟨130, 105⟩ := by
    rintro (⟨ob, hob, hline⟩ | hout)
    · rw [pC2] at hob
      simp only [List.mem_singleton] at hob
      subst hob
      rcases hline with hin | hin | ⟨e, he, hseg⟩
      · rcases hin with ⟨-, h2, -, -⟩
        norm_num at h2
      · rcases hin with ⟨-, h2, -, -⟩
        norm_num at h2
      · rw [rectEdges] at he
        simp only [List.mem_cons, List.not_mem_nil, or_false] at he
        rcases he with rfl | rfl | rfl | rfl <;>
          · rw [lineSegmentsIntersect] at hseg
            norm_num at hseg
    · rw [outsideArena, pC2] at hout
      norm_num [boundaryMargin] at hout
  have hyes : collidesInflated pC2 15 ⟨120, 105⟩ ⟨130, 105⟩ := by
    refine Or.inl ⟨⟨100, 100, 10, 10⟩, by rw [pC2]; exact List.mem_singleton.mpr rfl, ?_⟩
    refine Or.inl ?_
    rw [inflateRect, pointInRectangle]
    norm_num
  exact ⟨hno, hyes, fun hiff => hno (hiff.mpr hyes)⟩

/-- C2 (amended): each planner segment check tests the raw, uninflated
obstacle rectangles — the four-edge intersection tests plus the
endpoint-inside check exactly as the spec words them, but with no
vehicle-radius inflation — plus the boundary-margin test on the segment's
destination endpoint. -/
theorem planner_raw_rectangle_checks (P : RRTParams) (a b : Vector2D) :
    (∀ rect : Rectangle,
      lineIntersectsRectangle a b rect ↔ specSegmentRectTest a b rect) ∧
    (collides P a b ↔
      ((∃ ob ∈ P.obstacles, specSegmentRectTest a b ob) ∨ outsideArena P b)) := by
  have hiff : ∀ rect : Rectangle,
      lineIntersectsRectangle a b rect ↔ specSegmentRectTest a b rect := by
    intro rect
    rw [lineIntersectsRectangle, specSegmentRectTest, or_assoc]
  refine ⟨hiff, ?_⟩
  rw [collides]
  constructor
  · rintro (⟨ob, hob, hline⟩ | hout)
    · exact Or.inl ⟨ob, hob, (hiff ob).mp hline⟩
    · exact Or.inr hout
  · rintro (⟨ob, hob, hline⟩ | hout)
    · exact Or.inl ⟨ob, hob, (hiff ob).mpr hline⟩
    · exact Or.inr hout

/-! Section: C9 — behaviour when the start is already within goalThreshold -/

/-- With the start inside an obstacle every extension collides, so the loop
runs its full budget and returns the empty path. -/
theorem blocked_loop : ∀ (fuel k : ℕ),
    findPathLoop blockedParams ⟨100, 100⟩ randQuarter fuel k
      [RRTNode.root ⟨100, 100⟩] = [] := by
  intro fuel
  induction fuel with
  | zero => intro k; rfl
  | succ fuel ih =>
    intro k
    have hbias : ¬ (randQuarter k < goalBias) := by
      norm_num [randQuarter, goalBias]
    have hcol : collides blockedParams ⟨100, 100⟩
        (steer ⟨100, 100⟩
          (sampleRandomPoint blockedParams (randQuarter (k + 1))
            (randQuarter (k + 2))) stepSize) := by
      refine Or.inl ⟨⟨50, 50, 100, 100⟩,
        by rw [blockedParams]; exact List.mem_singleton.mpr rfl, Or.inl ?_⟩
      rw [pointInRectangle]
      norm_num
    simp only [findPathLoop]
    rw [if_neg hbias, if_neg hbias]
    simp only [findNearestNode, findNearestNodeAux, RRTNode.position]
    rw [if_pos hcol]
    exact ih (k + 3)

/-- C9 counterexample: with start = goal (distance 0, within goalThreshold)
but the start buried inside an obstacle, findPath returns the empty path —
not a path of length 1 or 2 — for this random stream, so the claimed outcome
is not independent of the samples drawn and not immediate. -/
theorem near_goal_not_immediate_counterexample :
    distance ⟨100, 100⟩ ⟨100, 100⟩ < goalThreshold ∧
    findPath blockedParams ⟨100, 100⟩ ⟨100, 100⟩ randQuarter = [] ∧
    (findPath blockedParams ⟨100, 100⟩ ⟨100, 100⟩ randQuarter).length ≠ 1 ∧
    (findPath blockedParams ⟨100, 100⟩ ⟨100, 100⟩ randQuarter).length ≠ 2 := by
  have hempty : findPath blockedParams ⟨100, 100⟩ ⟨100, 100⟩ randQuarter = [] := by
    rw [findPath]
    exact blocked_loop maxIterations 0
  refine ⟨?_, hempty, ?_, ?_⟩
  · rw [distance]
    norm_num [goalThreshold]
  · rw [hempty]; norm_num
  · rw [hempty]; norm_num

/-- When the first draw triggers the goal bias, the goal is within one
stepSize of the start, and the straight segment start–goal is collision-free,
findPath succeeds in its first iteration with the two-point path
[start, goal]. -/
theorem findPath_immediate (P : RRTParams)
    (start goal : Vector2D) (rand : ℕ → ℝ)
    (hbias : rand 0 < goalBias) (hnear : distance start goal ≤ stepSize)
    (hfree : ¬ collides P start goal) :
    findPath P start goal rand = [start, goal] := by
  have hsteer : steer start goal stepSize = goal := by
    rw [steer]
    exact if_pos hnear
  have hdg : distance goal goal < goalThreshold := by
    rw [distance]
    simp only [sub_self, mul_zero, zero_mul, add_zero, zero_add, Real.sqrt_zero]
    norm_num [goalThreshold]
  suffices h : ∀ fuel, findPathLoop P goal rand (fuel + 1) 0
      [RRTNode.root start] = [start, goal] by
    rw [findPath, show maxIterations = 999 + 1 from rfl]
    exact h 999
  intro fuel
  simp only [findPathLoop]
  rw [if_pos hbias, if_pos hbias]
  simp only [findNearestNode, findNearestNodeAux, RRTNode.position]
  rw [hsteer, if_neg hfree, if_pos hdg]
  rw [show chainPath (RRTNode.child goal (RRTNode.root start)) = [start, goal]
    from rfl]
  rw [simplifyPath]
  exact if_pos (by simp)

/-- C9 (amended): there is no special case for a start near the goal; what is
true is that when the first draw triggers the goal bias, the goal is within
one stepSize of the start, and the straight segment start–goal is
collision-free, findPath succeeds in its first iteration with the two-point
path [start, goal]. -/
theorem near_goal_first_iteration_success (P : RRTParams)
    (start goal : Vector2D) (rand : ℕ → ℝ)
    (hbias : rand 0 < goalBias) (hnear : distance start goal ≤ stepSize)
    (hfree : ¬ collides P start goal) :
    findPath P start goal rand = [start, goal] :=
  findPath_immediate P start goal rand hbias hnear hfree

/-- C9 witness: start (100,100), goal (110,100) — within the threshold and
one step apart — yields the immediate two-point path. -/
theorem near_goal_first_iteration_success_witness :
    findPath openParams ⟨100, 100⟩ ⟨110, 100⟩ randZero =
      [⟨100, 100⟩, ⟨110, 100⟩] :=
  near_goal_first_iteration_success openParams ⟨100, 100⟩ ⟨110, 100⟩ randZero
    (by norm_num [randZero, goalBias])
    (by
      rw [distance,
        sqrt_val (b := 10) (by norm_num) (by norm_num)]
      norm_num [stepSize])
    (by
      rintro (⟨ob, hob, -⟩ | hout)
      · rw [openParams] at hob
        exact absurd hob (List.not_mem_nil ob)
      · rw [outsideArena, openParams] at hout
        norm_num [boundaryMargin] at hout)

/-! Section: C1 — validity of successful findPath results -/

theorem chainPath_ne_nil : ∀ n : RRTNode, chainPath n ≠ [] := by
  intro n
  cases n with
  | root p => simp [chainPath]
  | child p par => simp [chainPath]

theorem chainPath_head {P : RRTParams} {start : Vector2D} {n : RRTNode}
    (h : goodNode P start n) : (chainPath n).head? = some start := by
  induction h with
  | root => rfl
  | child hpar hfree ih =>
    rw [chainPath]
    cases hc : chainPath _ with
    | nil => exact absurd hc (chainPath_ne_nil _)
    | cons a l =>
      rw [hc] at ih
      simpa using ih

theorem chainPath_getLast : ∀ n : RRTNode,
    (chainPath n).getLast? = some n.position := by
  intro n
  cases n with
  | root p => rfl
  | child p par =>
    rw [chainPath, RRTNode.position]
    exact List.getLast?_concat _

theorem chainPath_two {pos : Vector2D} {par : RRTNode} :
    2 ≤ (chainPath (RRTNode.child pos par)).length := by
  rw [chainPath, List.length_append]
  have := chainPath_ne_nil par
  have : 1 ≤ (chainPath par).length := by
    cases hc : chainPath par with
    | nil => exact absurd hc (chainPath_ne_nil par)
    | cons a l => simp
  simp only [List.length_singleton]
  omega

theorem chainPath_chain {P : RRTParams} {start : Vector2D} {n : RRTNode}
    (h : goodNode P start n) :
    List.Chain' (fun a b => ¬ collides P a b) (chainPath n) := by
  induction h with
  | root => exact List.chain'_singleton _
  | child hpar hfree ih =>
    rw [chainPath]
    refine List.chain'_append.mpr ⟨ih, List.chain'_singleton _, ?_⟩
    intro x hx y hy
    rw [chainPath_getLast] at hx
    simp only [Option.mem_def, Option.some.injEq] at hx
    simp only [List.head?_cons, Option.mem_def, Option.some.injEq] at hy
    subst hx
    subst hy
    exact hfree

theorem findNearestNodeAux_mem (point : Vector2D) :
    ∀ (rest : List RRTNode) (best : RRTNode) (bestD : ℝ),
    findNearestNodeAux point best bestD rest = best ∨
    findNearestNodeAux point best bestD rest ∈ rest := by
  intro rest
  induction rest with
  | nil => intro best bestD; exact Or.inl rfl
  | cons n r ih =>
    intro best bestD
    rw [findNearestNodeAux]
    split_ifs with h
    · rcases ih n (distance n.position point) with heq | hmem
      · exact Or.inr (by rw [heq]; exact List.mem_cons_self n r)
      · exact Or.inr (List.mem_cons_of_mem n hmem)
    · rcases ih best bestD with heq | hmem
      · exact Or.inl heq
      · exact Or.inr (List.mem_cons_of_mem n hmem)

theorem findNearestNode_mem (tree : List RRTNode) (point : Vector2D)
    (h : tree ≠ []) : findNearestNode tree point ∈ tree := by
  cases tree with
  | nil => exact absurd rfl h
  | cons n rest =>
    rw [findNearestNode]
    rcases findNearestNodeAux_mem point rest n
        (distance n.position point) with heq | hmem
    · rw [heq]; exact List.mem_cons_self n rest
    · exact List.mem_cons_of_mem n hmem

/-- Soundness of the planner loop: the result is either empty or the
simplification of the parent chain of a good node within goalThreshold of
the goal. -/
theorem findPathLoop_sound (P : RRTParams) (goal : Vector2D) (rand : ℕ → ℝ)
    (start : Vector2D) :
    ∀ (fuel k : ℕ) (tree : List RRTNode), tree ≠ [] →
    (∀ n ∈ tree, goodNode P start n) →
    findPathLoop P goal rand fuel k tree = [] ∨
    ∃ pos par, goodNode P start (RRTNode.child pos par) ∧
      distance pos goal < goalThreshold ∧
      findPathLoop P goal rand fuel k tree =
        simplifyPath P (chainPath (RRTNode.child pos par)) := by
  intro fuel
  induction fuel with
  | zero => intro k tree _ _; exact Or.inl rfl
  | succ fuel ih =>
    intro k tree hne hgood
    simp only [findPathLoop]
    by_cases hcol : collides P
        (findNearestNode tree (if rand k < goalBias then goal
          else sampleRandomPoint P (rand (k + 1)) (rand (k + 2)))).position
        (steer (findNearestNode tree (if rand k < goalBias then goal
          else sampleRandomPoint P (rand (k + 1)) (rand (k + 2)))).position
          (if rand k < goalBias then goal
            else sampleRandomPoint P (rand (k + 1)) (rand (k + 2))) stepSize)
    · rw [if_pos hcol]
      exact ih _ tree hne hgood
    · rw [if_neg hcol]
      by_cases hgoal : distance
          (steer (findNearestNode tree (if rand k < goalBias then goal
            else sampleRandomPoint P (rand (k + 1)) (rand (k + 2)))).position
            (if rand k < goalBias then goal
              else sampleRandomPoint P (rand (k + 1)) (rand (k + 2))) stepSize)
          goal < goalThreshold
      · rw [if_pos hgoal]
        right
        refine ⟨_, _, ?_, hgoal, rfl⟩
        exact goodNode.child
          (hgood _ (findNearestNode_mem tree _ hne)) hcol
      · rw [if_neg hgoal]
        refine ih _ _ (by simp) ?_
        intro n hn
        rcases List.mem_append.mp hn with hn | hn
        · exact hgood n hn
        · rw [List.mem_singleton] at hn
          subst hn
          exact goodNode.child
            (hgood _ (findNearestNode_mem tree _ hne)) hcol

theorem furthestVisibleScan_ge (P : RRTParams) (path : List Vector2D)
    (i : ℕ) : ∀ j, i + 1 ≤ furthestVisibleScan P path i j := by
  intro j
  induction j with
  | zero => exact le_refl _
  | succ j ihj =>
    rw [furthestVisibleScan]
    split_ifs with h1 h2
    · exact le_refl _
    · exact ihj
    · omega

theorem furthestVisibleScan_le (P : RRTParams) (path : List Vector2D)
    (i : ℕ) : ∀ j, furthestVisibleScan P path i j ≤ max (i + 1) j := by
  intro j
  induction j with
  | zero => simp [furthestVisibleScan]
  | succ j ihj =>
    rw [furthestVisibleScan]
    split_ifs with h1 h2
    · exact le_max_left _ _
    · exact le_trans ihj (max_le_max (le_refl _) (Nat.le_succ _))
    · exact le_max_right _ _

theorem furthestVisibleScan_at_le (P : RRTParams) (path : List Vector2D)
    (i : ℕ) : ∀ j, j ≤ i → furthestVisibleScan P path i j = i + 1 := by
  intro j
  induction j with
  | zero => intro _; rfl
  | succ j ihj =>
    intro h
    rw [furthestVisibleScan, if_pos h]

theorem furthestVisibleScan_free (P : RRTParams) (path : List Vector2D)
    (i : ℕ) (hfree : ¬ collides P (nth path i) (nth path (i + 1))) :
    ∀ j, i + 1 ≤ j →
    ¬ collides P (nth path i) (nth path (furthestVisibleScan P path i j)) := by
  intro j
  induction j with
  | zero => intro h; omega
  | succ j ihj =>
    intro h
    rw [furthestVisibleScan]
    split_ifs with h1 h2
    · exact hfree
    · rcases Nat.lt_or_ge j (i + 1) with hj | hj
      · rw [furthestVisibleScan_at_le P path i j (by omega)]
        exact hfree
      · exact ihj hj
    · exact h2

/-- When the loop index is at or past the end, the loop stops. -/
theorem simplifyLoop_stop (P : RRTParams) (path : List Vector2D) :
    ∀ (fuel i : ℕ), ¬ i < path.length - 1 →
    simplifyLoop P path fuel i = [] := by
  intro fuel i h
  cases fuel with
  | zero => rfl
  | succ fuel => rw [simplifyLoop, if_neg h]

theorem getLast?_cons_of_ne {a : Vector2D} {l : List Vector2D} (h : l ≠ []) :
    (a :: l).getLast? = l.getLast? := by
  cases l with
  | nil => exact absurd rfl h
  | cons b t => rfl

/-- The list produced by the simplification loop is never longer than the
number of raw segments it still has to cover (no collision hypothesis). -/
theorem simplifyLoop_length (P : RRTParams) (path : List Vector2D) :
    ∀ (fuel i : ℕ), path.length - 1 - i ≤ fuel →
    (simplifyLoop P path fuel i).length ≤ path.length - 1 - i := by
  intro fuel
  induction fuel with
  | zero =>
    intro i hf
    exact Nat.zero_le _
  | succ fuel ih =>
    intro i hf
    by_cases hi : i < path.length - 1
    · rw [simplifyLoop, if_pos hi]
      have hge := furthestVisibleScan_ge P path i (path.length - 1)
      have hrec := ih (furthestVisibleScan P path i (path.length - 1))
        (by omega)
      simp only [List.length_cons]
      omega
    · rw [simplifyLoop_stop P path _ _ hi]
      simp

/-- Soundness of the simplification loop over a raw path whose consecutive
segments are collision-free: the produced tail is nonempty, ends at the last
raw waypoint, and prepending the current waypoint gives a collision-free
chain. -/
theorem simplifyLoop_sound (P : RRTParams) (path : List Vector2D)
    (hend : ∀ m, m + 1 < path.length →
      ¬ collides P (nth path m) (nth path (m + 1))) :
    ∀ (fuel i : ℕ), i < path.length - 1 → path.length - 1 - i ≤ fuel →
    simplifyLoop P path fuel i ≠ [] ∧
    (simplifyLoop P path fuel i).getLast? =
      some (nth path (path.length - 1)) ∧
    List.Chain' (fun a b => ¬ collides P a b)
      (nth path i :: simplifyLoop P path fuel i) := by
  intro fuel
  induction fuel with
  | zero => intro i hi hf; omega
  | succ fuel ih =>
    intro i hi hf
    simp only [simplifyLoop]
    rw [if_pos hi]
    have hge := furthestVisibleScan_ge P path i (path.length - 1)
    have hle : furthestVisibleScan P path i (path.length - 1) ≤
        path.length - 1 := by
      have := furthestVisibleScan_le P path i (path.length - 1)
      omega
    have hfree : ¬ collides P (nth path i)
        (nth path (furthestVisibleScan P path i (path.length - 1))) :=
      furthestVisibleScan_free P path i (hend i (by omega))
        (path.length - 1) (by omega)
    by_cases hstop : furthestVisibleScan P path i (path.length - 1) <
        path.length - 1
    · obtain ⟨hne, hlast, hchn⟩ := ih _ hstop (by omega)
      refine ⟨by simp, ?_, ?_⟩
      · rw [getLast?_cons_of_ne hne]
        exact hlast
      · exact List.chain'_cons.mpr ⟨hfree, hchn⟩
    · have hfveq : furthestVisibleScan P path i (path.length - 1) =
        path.length - 1 := by omega
      rw [simplifyLoop_stop P path fuel _ hstop]
      refine ⟨by simp, by rw [hfveq]; rfl, ?_⟩
      exact List.chain'_cons.mpr ⟨hfree, List.chain'_singleton _⟩

theorem nth_head {l : List Vector2D} (h : l ≠ []) :
    l.head? = some (nth l 0) := by
  cases l with
  | nil => exact absurd rfl h
  | cons a t => rfl

theorem getLast?_eq_nth : ∀ (l : List Vector2D), l ≠ [] →
    l.getLast? = some (nth l (l.length - 1))
  | [], h => absurd rfl h
  | [a], _ => rfl
  | a :: b :: t, _ => by
    rw [getLast?_cons_of_ne (by simp), getLast?_eq_nth (b :: t) (by simp)]
    simp only [List.length_cons]
    rfl

/-- Index form of a collision-free chain. -/
theorem chain_to_nth {P : RRTParams} {l : List Vector2D}
    (h : List.Chain' (fun a b => ¬ collides P a b) l) :
    ∀ m, m + 1 < l.length → ¬ collides P (nth l m) (nth l (m + 1)) := by
  intro m hm
  have := List.chain'_iff_get.mp h m (by omega)
  rw [nth, nth, List.getD_eq_get _ _ (by omega : m < l.length),
    List.getD_eq_get _ _ (by omega : m + 1 < l.length)]
  exact this

/-- Path simplification never increases the length (hence never the segment
count) of the path it is given. -/
theorem simplifyPath_length_le (P : RRTParams) (q : List Vector2D) :
    (simplifyPath P q).length ≤ q.length := by
  rw [simplifyPath]
  split_ifs with h
  · exact le_refl _
  · have := simplifyLoop_length P q q.length 0 (by omega)
    simp only [List.length_cons]
    omega

/-- Soundness of simplifyPath on a raw path with collision-free consecutive
segments: first point, last point, and chain freedom are preserved. -/
theorem simplifyPath_sound (P : RRTParams) (path : List Vector2D)
    (h2 : 2 ≤ path.length)
    (hend : ∀ m, m + 1 < path.length →
      ¬ collides P (nth path m) (nth path (m + 1))) :
    (simplifyPath P path).head? = path.head? ∧
    (simplifyPath P path).getLast? = path.getLast? ∧
    List.Chain' (fun a b => ¬ collides P a b) (simplifyPath P path) := by
  have hne : path ≠ [] := by
    cases path with
    | nil => simp at h2
    | cons a t => simp
  rw [simplifyPath]
  split_ifs with hle2
  · refine ⟨rfl, rfl, ?_⟩
    rw [List.chain'_iff_get]
    intro m hm
    have := hend m (by omega)
    rw [nth, nth, List.getD_eq_get _ _ (by omega : m < path.length),
      List.getD_eq_get _ _ (by omega : m + 1 < path.length)] at this
    exact this
  · obtain ⟨hlne, hlast, hchn⟩ :=
      simplifyLoop_sound P path hend path.length 0 (by omega) (by omega)
    refine ⟨?_, ?_, hchn⟩
    · rw [nth_head hne]
      rfl
    · rw [getLast?_cons_of_ne hlne, hlast, getLast?_eq_nth path hne]

/-- C1: a successful findPath result with at least two points is
collision-free between every consecutive pair of simplified waypoints (under
the planner's own collides test), starts at the start, ends within
goalThreshold of the goal, and path simplification never increases the
segment count of any path it is given. -/
theorem findPath_result_valid (P : RRTParams) (start goal : Vector2D)
    (rand : ℕ → ℝ) (res : List Vector2D)
    (hres : findPath P start goal rand = res) (hlen : 2 ≤ res.length) :
    List.Chain' (fun a b => ¬ collides P a b) res ∧
    res.head? = some start ∧
    (∃ lastPt, res.getLast? = some lastPt ∧
      distance lastPt goal < goalThreshold) ∧
    (∀ q : List Vector2D, (simplifyPath P q).length ≤ q.length) := by
  rcases findPathLoop_sound P goal rand start maxIterations 0
      [RRTNode.root start] (by simp)
      (by
        intro n hn
        rw [List.mem_singleton] at hn
        subst hn
        exact goodNode.root) with hempty | ⟨pos, par, hgood, hdist, heq⟩
  · rw [findPath, hempty] at hres
    subst hres
    simp at hlen
  · rw [findPath, heq] at hres
    have hchain := chainPath_chain hgood
    have h2 : 2 ≤ (chainPath (RRTNode.child pos par)).length :=
      chainPath_two
    obtain ⟨hh, hl, hcn⟩ := simplifyPath_sound P
      (chainPath (RRTNode.child pos par)) h2 (chain_to_nth hchain)
    subst hres
    refine ⟨hcn, ?_, ?_, fun q => simplifyPath_length_le P q⟩
    · rw [hh, chainPath_head hgood]
    · refine ⟨pos, ?_, hdist⟩
      rw [hl, chainPath_getLast]
      rfl

/-- C1 witness: the concrete one-iteration run in the open arena produces
[(100,100),(110,100)], which the theorem certifies. -/
theorem findPath_result_valid_witness :
    List.Chain' (fun a b => ¬ collides openParams a b)
      [⟨100, 100⟩, ⟨110, 100⟩] ∧
    ([(⟨100, 100⟩ : Vector2D), ⟨110, 100⟩]).head? = some ⟨100, 100⟩ ∧
    (∃ lastPt, ([(⟨100, 100⟩ : Vector2D), ⟨110, 100⟩]).getLast? = some lastPt ∧
      distance lastPt ⟨110, 100⟩ < goalThreshold) ∧
    (∀ q : List Vector2D, (simplifyPath openParams q).length ≤ q.length) :=
  findPath_result_valid openParams ⟨100, 100⟩ ⟨110, 100⟩ randZero
    [⟨100, 100⟩, ⟨110, 100⟩]
    (findPath_immediate openParams ⟨100, 100⟩ ⟨110, 100⟩ randZero
      (by norm_num [randZero, goalBias])
      (by
        rw [distance, sqrt_val (b := 10) (by norm_num) (by norm_num)]
        norm_num [stepSize])
      (by
        rintro (⟨ob, hob, -⟩ | hout)
        · rw [openParams] at hob
          exact absurd hob (List.not_mem_nil ob)
        · rw [outsideArena, openParams] at hout
          norm_num [boundaryMargin] at hout))
    (by norm_num)

/-! Section: C7 — zero-weight neutrality of the seven cost terms -/

/-- Obstacle-avoidance cost vanishes when its weight is zero. -/
theorem obstacleAvoidanceCost_of_weight_zero (p : DDPParams)
    (pos : Vector2D) (h : p.obstacleWeight = 0) :
    obstacleAvoidanceCost p pos = 0 := by
  rw [obstacleAvoidanceCost]
  apply List.sum_eq_zero
  intro x hx
  simp only [List.mem_map] at hx
  obtain ⟨ob, _, rfl⟩ := hx
  simp [h]

/-- Boundary-avoidance cost vanishes when its weight is zero. -/
theorem boundaryAvoidanceCost_of_weight_zero (p : DDPParams)
    (pos : Vector2D) (h : p.boundaryWeight = 0) :
    boundaryAvoidanceCost p pos = 0 := by
  simp [boundaryAvoidanceCost, h]

/-- Per-obstacle collision-course cost vanishes when its weight is zero. -/
theorem obstacleCollisionCourseCost_of_weight_zero (p : DDPParams)
    (pos vel : Vector2D) (speed : ℝ) (ob : Rectangle)
    (h : p.collisionCourseWeight = 0) :
    obstacleCollisionCourseCost p pos vel speed ob = 0 := by
  rw [obstacleCollisionCourseCost]
  rcases minTimeToCollision pos (vel.x / speed) (vel.y / speed) speed
      (inflateRect ob p.shipRadius) with _ | t
  · rfl
  · simp [h]

/-- Collision-course cost vanishes when its weight is zero. -/
theorem collisionCourseCost_of_weight_zero (p : DDPParams) (s : GameState)
    (h : p.collisionCourseWeight = 0) : collisionCourseCost p s = 0 := by
  simp only [collisionCourseCost]
  split_ifs with h1 h2
  · rfl
  · rfl
  · apply List.sum_eq_zero
    intro x hx
    simp only [List.mem_map] at hx
    obtain ⟨ob, _, rfl⟩ := hx
    exact obstacleCollisionCourseCost_of_weight_zero p _ _ _ ob h

/-- Waypoint-following cost vanishes when both of its weights are zero, as
long as the query has a finite answer (fewer than two waypoints, or some
consecutive pair distinct). -/
theorem getWaypointsFollowingCost_of_weights_zero (wps : List Vector2D)
    (pos vel : Vector2D)
    (hq : wps.length < 2 ∨ (getShortestLineToPath wps pos).isSome) :
    getWaypointsFollowingCost wps pos vel 0 0 = 0 := by
  rw [getWaypointsFollowingCost]
  by_cases hlen : wps.length < 2
  · rw [if_pos hlen]
  · rw [if_neg hlen]
    rcases hq with h | h
    · exact absurd h hlen
    · obtain ⟨hit, hh⟩ := Option.isSome_iff_exists.mp h
      rw [hh]
      simp only []
      split_ifs <;> ring

/-- C7: for each of the seven cost terms, zeroing that term's weight(s) makes
the component exactly zero for every vehicle state, and the reported total is
always the sum of the seven components.  (The waypoint-following term carries
two weights, `waypointsDistanceWeight` and `waypointsVelocityWeight`; both
are set to zero, and the waypoint query must have a finite answer — which
holds whenever some consecutive waypoint pair is distinct or the list is
short.) -/
theorem zero_weight_neutrality (p : DDPParams) (s : GameState)
    (hw : p.waypoints.length < 2 ∨
      (getShortestLineToPath p.waypoints s.position).isSome) :
    (p.positionWeight = 0 → (costComponents p s).position = 0) ∧
    (p.velocityWeight = 0 → (costComponents p s).velocity = 0) ∧
    (p.angularVelocityWeight = 0 → (costComponents p s).angularVelocity = 0) ∧
    (p.obstacleWeight = 0 → (costComponents p s).obstacle = 0) ∧
    (p.boundaryWeight = 0 → (costComponents p s).boundary = 0) ∧
    (p.collisionCourseWeight = 0 → (costComponents p s).collisionCourse = 0) ∧
    (p.waypointsDistanceWeight = 0 ∧ p.waypointsVelocityWeight = 0 →
      (costComponents p s).waypoints = 0) ∧
    (costComponents p s).total =
      (costComponents p s).position + (costComponents p s).velocity +
      (costComponents p s).angularVelocity + (costComponents p s).obstacle +
      (costComponents p s).boundary + (costComponents p s).collisionCourse +
      (costComponents p s).waypoints := by
  refine ⟨?_, ?_, ?_, ?_, ?_, ?_, ?_, rfl⟩
  · intro h; simp [costComponents, h]
  · intro h; simp [costComponents, h]
  · intro h; simp [costComponents, h]
  · intro h
    show obstacleAvoidanceCost p s.position = 0
    exact obstacleAvoidanceCost_of_weight_zero p _ h
  · intro h
    show boundaryAvoidanceCost p s.position = 0
    exact boundaryAvoidanceCost_of_weight_zero p _ h
  · intro h
    show collisionCourseCost p s = 0
    exact collisionCourseCost_of_weight_zero p s h
  · rintro ⟨h1, h2⟩
    show getWaypointsFollowingCost p.waypoints s.position s.velocity
      p.waypointsDistanceWeight p.waypointsVelocityWeight = 0
    rw [h1, h2]
    exact getWaypointsFollowingCost_of_weights_zero _ _ _ hw

/-- C7 witness: with every weight zero, every component is zero and the total
is their sum. -/
theorem zero_weight_neutrality_witness :
    (costComponents zeroWeightDdp sampleState).position = 0 ∧
    (costComponents zeroWeightDdp sampleState).velocity = 0 ∧
    (costComponents zeroWeightDdp sampleState).angularVelocity = 0 ∧
    (costComponents zeroWeightDdp sampleState).obstacle = 0 ∧
    (costComponents zeroWeightDdp sampleState).boundary = 0 ∧
    (costComponents zeroWeightDdp sampleState).collisionCourse = 0 ∧
    (costComponents zeroWeightDdp sampleState).waypoints = 0 ∧
    (costComponents zeroWeightDdp sampleState).total =
      (costComponents zeroWeightDdp sampleState).position +
      (costComponents zeroWeightDdp sampleState).velocity +
      (costComponents zeroWeightDdp sampleState).angularVelocity +
      (costComponents zeroWeightDdp sampleState).obstacle +
      (costComponents zeroWeightDdp sampleState).boundary +
      (costComponents zeroWeightDdp sampleState).collisionCourse +
      (costComponents zeroWeightDdp sampleState).waypoints := by
  obtain ⟨h1, h2, h3, h4, h5, h6, h7, h8⟩ :=
    zero_weight_neutrality zeroWeightDdp sampleState (Or.inl (by norm_num [zeroWeightDdp]))
  exact ⟨h1 rfl, h2 rfl, h3 rfl, h4 rfl, h5 rfl, h6 rfl, h7 ⟨rfl, rfl⟩, h8⟩

end
